import Mathlib

/-!
# Crossplane reconciliation core: a shallow embedding

The development follows the Go packages it embeds:

* `Crossplane.compute`  : `pkg/controller/gcp/compute/network.go`
* `Crossplane.resource` : `pkg/resource/publisher.go`
* `Crossplane.composed` : `pkg/controller/apiextensions/composed/composition.go`
* `Crossplane.connection` : `pkg/clients/gcp/connection/connection.go`

Go values are modelled as follows.

* `error` is `Option GoError`; `nil` is `none`.
* A pointer that may be `nil` is an `Option`; dereferencing `none` is a
  run-time panic, and a function that can panic returns an `Option` whose
  `none` is the panic.
* A method that mutates its receiver or an argument through a pointer returns
  the mutated value next to its ordinary results.
* Calls made on an external collaborator (provider adapter, object store) are
  recorded, in order, in a list returned next to the ordinary results.
* `map[string][]byte` is an association list with unique keys; only its
  lookups are meaningful, the order of its entries is not.
-/

namespace Crossplane

/-! ## Definitions -/

/-- A Go byte slice. The nil slice and the empty slice are both `[]`. -/
abbrev Bytes := List Nat

/-- The Go type `map[string][]byte`, used for connection details and for the
data of a secret. -/
abbrev ConnectionDetails := AList (fun _ : String => Bytes)

/-- Go error values. `apiNotFound` is the object store's "not found" status
error, `providerNotFound` the remote provider API's "not found" sentinel. -/
inductive GoError where
  | new (msg : String)
  | apiNotFound (msg : String)
  | providerNotFound (msg : String)
  | wrap (cause : GoError) (msg : String)
deriving DecidableEq, Repr

/-- The function `errors.Wrap`: annotates a non-nil error, and maps nil to nil. -/
def Wrap (err : Option GoError) (msg : String) : Option GoError :=
  match err with
  | none => none
  | some e => some (GoError.wrap e msg)

/-- The function `kerrors.IsNotFound`: whether the error is the object store's
"not found" status error. -/
def IsNotFound (err : Option GoError) : Bool :=
  match err with
  | some (GoError.apiNotFound _) => true
  | _ => false

/-- The function `resource.IgnoreNotFound`: nil for a "not found" error, the
error itself otherwise. -/
def IgnoreNotFound (err : Option GoError) : Option GoError :=
  if IsNotFound err then none else err

/-- The error half of a Go `(value, error)` result. -/
def errOf {α : Type} (r : Except GoError α) : Option GoError :=
  match r with
  | .error e => some e
  | .ok _ => none

/-- The type `metav1.OwnerReference`; `Controller` is a `*bool` whose nil is
read as false. -/
structure OwnerReference where
  APIVersion : String
  Kind : String
  Name : String
  UID : String
  Controller : Bool
deriving DecidableEq, Repr

/-- The type `corev1.Secret`, reduced to its key, owner references and data;
`Data` is a map that may be nil. -/
structure Secret where
  Namespace : String
  Name : String
  OwnerReferences : List OwnerReference
  Data : Option ConnectionDetails
deriving DecidableEq

/-- Reading `s.Data[k]` with the comma-ok form: a nil map has no keys. -/
def Secret.get (s : Secret) (k : String) : Option Bytes :=
  match s.Data with
  | none => none
  | some d => d.lookup k

/-! ### `pkg/controller/gcp/compute/network.go` -/

namespace compute

/-- Modelled from the spec: `gcpclients.IsErrorNotFound` is declared in a file
that is not part of the sources; the spec describes it as recognising the
"not found" sentinel of the remote API, as opposed to any other error. -/
def IsErrorNotFound (err : Option GoError) : Bool :=
  match err with
  | some (GoError.providerNotFound _) => true
  | _ => false

def errNotVPC : String := "managed resource is not a Network resource"

def namePrefix : String := "vpc"

/-- The type `GCPNetworkSpec`: the name of the external network and the
remaining provider fields, whose declaration is not part of the sources and
which are kept as a value of an arbitrary type `ρ`. -/
structure GCPNetworkSpec (ρ : Type) where
  Name : String
  Rest : ρ
deriving DecidableEq, Repr

/-- The type `Network`, reduced to the fields `network.go` reads or writes:
`ObjectMeta.UID`, `Spec.SpecForProvider` (a pointer, possibly nil) and
`Status.StatusAtProvider` (of an arbitrary type `τ`). -/
structure Network (ρ τ : Type) where
  UID : String
  SpecForProvider : Option (GCPNetworkSpec ρ)
  StatusAtProvider : τ
deriving DecidableEq, Repr

/-- A value of the interface `resource.Managed`: a `*Network`, or a resource of
another kind, for which the type assertion `mg.(*v1alpha1.Network)` fails. -/
inductive Managed (ρ τ : Type) where
  | network (cr : Network ρ τ)
  | foreign (kind : String)
deriving DecidableEq, Repr

/-- The provider adapter `networksService`. Each field gives the result of
`call.Do()` for the call built from the arguments; `ν` is the provider's own
network type `googlecompute.Network`. -/
structure NetworksService (ν : Type) where
  Get : String → String → Except GoError ν
  Insert : String → ν → Option GoError
  Patch : String → String → ν → Option GoError
  Delete : String → String → Option GoError

/-- A call issued on the provider adapter. -/
inductive ProviderCall (ν : Type) where
  | Get (project network : String)
  | Insert (project : String) (body : ν)
  | Patch (project network : String) (body : ν)
  | Delete (project network : String)
deriving DecidableEq, Repr

/-- The type `external`. `GenerateGCPNetworkSpec` and
`GenerateGCPNetworkStatus` are the two converters of the API package, which is
not part of the sources; they are carried as fields. -/
structure external (ρ τ ν : Type) where
  networksService : NetworksService ν
  projectID : String
  GenerateGCPNetworkSpec : GCPNetworkSpec ρ → ν
  GenerateGCPNetworkStatus : ν → τ

structure ExternalObservation where
  ResourceExists : Bool := false
  ConnectionDetails : Option Crossplane.ConnectionDetails := none
deriving DecidableEq

structure ExternalCreation where
  ConnectionDetails : Option Crossplane.ConnectionDetails := none
deriving DecidableEq

/-- What a method of `external` leaves behind: its result, its error, the
managed resource as mutated through its pointer, and the provider calls it
issued, in order. -/
structure Outcome (α ρ τ ν : Type) where
  result : α
  err : Option GoError
  mg : Managed ρ τ
  calls : List (ProviderCall ν)

/-- The method `external.Observe`. -/
def external.Observe {ρ τ ν : Type} (c : external ρ τ ν) (mg : Managed ρ τ) :
    Outcome ExternalObservation ρ τ ν :=
  match mg with
  | .foreign _ => ⟨{}, some (GoError.new errNotVPC), mg, []⟩
  | .network cr =>
    match cr.SpecForProvider with
    | none => ⟨{ ResourceExists := false }, none, mg, []⟩
    | some spec =>
      if spec.Name = "" then ⟨{ ResourceExists := false }, none, mg, []⟩
      else
        let res := c.networksService.Get c.projectID spec.Name
        let calls := [ProviderCall.Get c.projectID spec.Name]
        if IsErrorNotFound (errOf res) then
          ⟨{ ResourceExists := false }, none, mg, calls⟩
        else
          match res with
          | .error err => ⟨{}, some err, mg, calls⟩
          | .ok observed =>
            ⟨{ ResourceExists := true }, none,
              .network { cr with StatusAtProvider := c.GenerateGCPNetworkStatus observed },
              calls⟩

/-- The method `external.Create`. `default : ρ` stands for the zero value of the
remaining fields in the composite literal `&GCPNetworkSpec{}`. -/
def external.Create {ρ τ ν : Type} [Inhabited ρ] (c : external ρ τ ν) (mg : Managed ρ τ) :
    Outcome ExternalCreation ρ τ ν :=
  match mg with
  | .foreign _ => ⟨{}, some (GoError.new errNotVPC), mg, []⟩
  | .network cr =>
    let spec₀ : GCPNetworkSpec ρ :=
      match cr.SpecForProvider with
      | none => { Name := "", Rest := default }
      | some s => s
    let spec₁ : GCPNetworkSpec ρ :=
      if spec₀.Name = "" then { spec₀ with Name := namePrefix ++ "-" ++ cr.UID } else spec₀
    let cr₁ : Network ρ τ := { cr with SpecForProvider := some spec₁ }
    let body := c.GenerateGCPNetworkSpec spec₁
    let calls := [ProviderCall.Insert c.projectID body]
    match c.networksService.Insert c.projectID body with
    | some err => ⟨{}, some err, .network cr₁, calls⟩
    | none => ⟨{}, none, .network cr₁, calls⟩

/-- The method `external.Delete`. The result is `none` when the method panics:
`cr.Spec.SpecForProvider.Name` dereferences the pointer without a nil check.
Otherwise it is the returned error and the provider calls issued. -/
def external.Delete {ρ τ ν : Type} (c : external ρ τ ν) (mg : Managed ρ τ) :
    Option (Option GoError × List (ProviderCall ν)) :=
  match mg with
  | .foreign _ => some (some (GoError.new errNotVPC), [])
  | .network cr =>
    match cr.SpecForProvider with
    | none => none
    | some spec =>
      let err := c.networksService.Delete c.projectID spec.Name
      let calls := [ProviderCall.Delete c.projectID spec.Name]
      if !IsErrorNotFound err && err != none then some (err, calls)
      else some (none, calls)

/-- A provider adapter on which every call succeeds; `Get` returns `observed`. -/
def okService {ν : Type} (observed : ν) : NetworksService ν where
  Get := fun _ _ => .ok observed
  Insert := fun _ _ => none
  Patch := fun _ _ _ => none
  Delete := fun _ _ => none

/-- A provider adapter on which every call fails with `e`. -/
def failService {ν : Type} (e : GoError) : NetworksService ν where
  Get := fun _ _ => .error e
  Insert := fun _ _ => some e
  Patch := fun _ _ _ => some e
  Delete := fun _ _ => some e

/-- An `external` whose provider network type is the spec itself and whose
status is the observed name. -/
def sampleExternal (svc : NetworksService (GCPNetworkSpec Nat)) :
    external Nat String (GCPNetworkSpec Nat) where
  networksService := svc
  projectID := "proj"
  GenerateGCPNetworkSpec := fun s => s
  GenerateGCPNetworkStatus := fun o => o.Name

/-- A Network whose provider spec is missing. -/
def bareNetwork : Network Nat String :=
  { UID := "u1", SpecForProvider := none, StatusAtProvider := "" }

/-- A Network whose provider spec carries the name `test-network`. -/
def namedNetwork : Network Nat String :=
  { UID := "u1", SpecForProvider := some { Name := "test-network", Rest := 7 },
    StatusAtProvider := "" }

end compute

/-! ### `pkg/resource/publisher.go` -/

namespace resource

/-- The function `metav1.GetControllerOf`: the first owner reference whose
`Controller` flag is set. -/
def GetControllerOf (s : Secret) : Option OwnerReference :=
  s.OwnerReferences.find? (fun r => r.Controller)

/-- The function `reflect.DeepEqual` on two secrets: equal keys and owner
references, and data that are both nil or are equal as maps. -/
def Secret.DeepEqual (a b : Secret) : Bool :=
  decide (a.Namespace = b.Namespace) && decide (a.Name = b.Name) &&
    decide (a.OwnerReferences = b.OwnerReferences) &&
    (match a.Data, b.Data with
     | none, none => true
     | some x, some y => decide (x.entries.Perm y.entries)
     | _, _ => false)

/-- A value of the interface `Managed`, reduced to what the publisher reads: its
namespace, name and UID, and the name of the connection secret it writes to. -/
structure Managed where
  Namespace : String
  Name : String
  UID : String
  SecretName : String
deriving DecidableEq, Repr

structure GroupVersionKind where
  APIVersion : String
  Kind : String
deriving DecidableEq, Repr

/-- The two error strings `publisher.go` uses; they are declared in a file that
is not part of the sources and are carried as parameters. -/
structure ErrorStrings where
  errSecretConflict : String
  errCreateOrUpdateSecret : String

/-- Modelled from the spec: the object store client (`client.Client`), an
external collaborator. It holds the stored secret records, at most one per
key, and for each operation an optional failure of the store itself (any
failure other than "not found"). -/
structure Client where
  secrets : List Secret
  getFault : Option String
  createFault : Option String
  updateFault : Option String
  deleteFault : Option String

/-- Whether a record is the one stored under the key `ns/name`. -/
def Secret.hasKey (ns name : String) (s : Secret) : Bool :=
  decide (s.Namespace = ns) && decide (s.Name = name)

/-- The record stored under a key, if any. -/
def Client.lookup (c : Client) (ns name : String) : Option Secret :=
  c.secrets.find? (Secret.hasKey ns name)

/-- Modelled from the spec: `Get(key)` gives the object or `NotFound`, unless
the store fails. -/
def Client.Get (c : Client) (ns name : String) : Except GoError Secret :=
  match c.getFault with
  | some m => .error (GoError.new m)
  | none =>
    match c.lookup ns name with
    | none => .error (GoError.apiNotFound name)
    | some s => .ok s

/-- Modelled from the spec: `Create(object)` stores a record under a key that
holds none. -/
def Client.Create (c : Client) (s : Secret) : Option GoError × Client :=
  match c.createFault with
  | some m => (some (GoError.new m), c)
  | none =>
    match c.lookup s.Namespace s.Name with
    | some _ => (some (GoError.new "already exists"), c)
    | none => (none, { c with secrets := c.secrets ++ [s] })

/-- Modelled from the spec: `Update(object)` replaces the record stored under
the object's key. -/
def Client.Update (c : Client) (s : Secret) : Option GoError × Client :=
  match c.updateFault with
  | some m => (some (GoError.new m), c)
  | none =>
    match c.lookup s.Namespace s.Name with
    | none => (some (GoError.apiNotFound s.Name), c)
    | some _ =>
      (none, { c with secrets := c.secrets.map (fun x =>
        if Secret.hasKey s.Namespace s.Name x = true then s else x) })

/-- Modelled from the spec: `Delete(object)` removes the record stored under
the object's key, and reports `NotFound` when there is none. -/
def Client.Delete (c : Client) (s : Secret) : Option GoError × Client :=
  match c.deleteFault with
  | some m => (some (GoError.new m), c)
  | none =>
    match c.lookup s.Namespace s.Name with
    | none => (some (GoError.apiNotFound s.Name), c)
    | some _ =>
      (none, { c with secrets := c.secrets.filter (fun x =>
        !(Secret.hasKey s.Namespace s.Name x)) })

/-- Modelled from the spec: `util.CreateOrUpdate` is declared in a file that is
not part of the sources. The spec calls it the find-or-create-then-mutate
upsert: the object is read from the store; when it is not found, the mutation
runs on the supplied object, which is then created; when it is found, the
mutation runs on the stored state, which is then written back, unless the
mutation left it equal to the stored state. An error of the mutation is
returned before anything is written. -/
def CreateOrUpdate (c : Client) (obj : Secret) (f : Secret → Option GoError × Secret) :
    Option GoError × Client :=
  match c.Get obj.Namespace obj.Name with
  | .error e =>
    if IsNotFound (some e) then
      match f obj with
      | (some err, _) => (some err, c)
      | (none, obj₁) => c.Create obj₁
    else (some e, c)
  | .ok existing =>
    match f existing with
    | (some err, _) => (some err, c)
    | (none, obj₁) =>
      if Secret.DeepEqual existing obj₁ then (none, c) else c.Update obj₁

/-- Modelled from the spec: `ConnectionSecretFor` is declared in a file that is
not part of the sources. The spec describes the record as associated one to one
with the resource, named deterministically from its identity and kind, and as
carrying the controller identity of its owner. -/
def ConnectionSecretFor (mg : Managed) (kind : GroupVersionKind) : Secret :=
  { Namespace := mg.Namespace
    Name := mg.SecretName
    OwnerReferences :=
      [{ APIVersion := kind.APIVersion, Kind := kind.Kind, Name := mg.Name, UID := mg.UID,
         Controller := true }]
    Data := some ∅ }

/-- The type `APISecretPublisher`. The typer is assumed to know the kind of
every managed resource it is asked about, so that `MustGetKind` returns. -/
structure APISecretPublisher where
  client : Client
  typer : Managed → GroupVersionKind

/-- The function literal passed to `util.CreateOrUpdate` in
`ApplyConnection`. It returns the error and the secret `s` as it is when the
function returns. The `range` over the map `c` visits every key once; the
order, which Go leaves open, is here that of the entries. -/
def ApplyConnectionMutate (E : ErrorStrings) (mg : Managed) (c : ConnectionDetails)
    (s : Secret) : Option GoError × Secret :=
  match GetControllerOf s with
  | none => (some (GoError.new E.errSecretConflict), s)
  | some ref =>
    if ref.UID ≠ mg.UID then (some (GoError.new E.errSecretConflict), s)
    else
      let data : ConnectionDetails :=
        match s.Data with
        | none => ∅
        | some d => d
      (none, { s with Data := some (c.entries.foldl (fun d kv => d.insert kv.1 kv.2) data) })

/-- The method `APISecretPublisher.ApplyConnection`; the publisher is returned
with the state its client is left in. -/
def APISecretPublisher.ApplyConnection (E : ErrorStrings) (a : APISecretPublisher)
    (mg : Managed) (c : ConnectionDetails) : Option GoError × APISecretPublisher :=
  let s := ConnectionSecretFor mg (a.typer mg)
  match CreateOrUpdate a.client s (ApplyConnectionMutate E mg c) with
  | (err, client₁) => (Wrap err E.errCreateOrUpdateSecret, { a with client := client₁ })

/-- The method `APISecretPublisher.DeleteConnection`. -/
def APISecretPublisher.DeleteConnection (E : ErrorStrings) (a : APISecretPublisher)
    (mg : Managed) (_c : ConnectionDetails) : Option GoError × APISecretPublisher :=
  let s := ConnectionSecretFor mg (a.typer mg)
  match a.client.Delete s with
  | (err, client₁) =>
    (Wrap (IgnoreNotFound err) E.errCreateOrUpdateSecret, { a with client := client₁ })

/-- A value of the interface `ManagedConnectionPublisher`, acting on a world of
type `σ`: each method returns its error and the world it leaves. -/
structure ManagedConnectionPublisher (σ : Type) where
  ApplyConnection : σ → Managed → ConnectionDetails → Option GoError × σ
  DeleteConnection : σ → Managed → ConnectionDetails → Option GoError × σ

/-- The type `PublisherChain`. -/
abbrev PublisherChain (σ : Type) := List (ManagedConnectionPublisher σ)

/-- The method `PublisherChain.ApplyConnection`. -/
def PublisherChain.ApplyConnection {σ : Type} (pc : PublisherChain σ) (w : σ) (mg : Managed)
    (c : ConnectionDetails) : Option GoError × σ :=
  match pc with
  | [] => (none, w)
  | p :: rest =>
    match p.ApplyConnection w mg c with
    | (some err, w₁) => (some err, w₁)
    | (none, w₁) => PublisherChain.ApplyConnection rest w₁ mg c

/-- The method `PublisherChain.DeleteConnection`. -/
def PublisherChain.DeleteConnection {σ : Type} (pc : PublisherChain σ) (w : σ) (mg : Managed)
    (c : ConnectionDetails) : Option GoError × σ :=
  match pc with
  | [] => (none, w)
  | p :: rest =>
    match p.DeleteConnection w mg c with
    | (some err, w₁) => (some err, w₁)
    | (none, w₁) => PublisherChain.DeleteConnection rest w₁ mg c

/-- The world after every publisher of `ps` has had `ApplyConnection` invoked,
one after the other in list order, whatever each returned. -/
def worldAfterApply {σ : Type} (ps : PublisherChain σ) (w : σ) (mg : Managed)
    (c : ConnectionDetails) : σ :=
  ps.foldl (fun w p => (p.ApplyConnection w mg c).2) w

/-- The world after every publisher of `ps` has had `DeleteConnection` invoked,
one after the other in list order, whatever each returned. -/
def worldAfterDelete {σ : Type} (ps : PublisherChain σ) (w : σ) (mg : Managed)
    (c : ConnectionDetails) : σ :=
  ps.foldl (fun w p => (p.DeleteConnection w mg c).2) w

/-- Error strings used in the examples. -/
def sampleStrings : ErrorStrings :=
  { errSecretConflict := "secret conflict", errCreateOrUpdateSecret := "cannot write secret" }

/-- A managed resource that writes its connection details to `ns/db-conn`. -/
def sampleManaged : Managed :=
  { Namespace := "ns", Name := "db", UID := "uid-db", SecretName := "db-conn" }

/-- The record `ns/db-conn`, controlled by the UID `uid`, with the given data. -/
def sampleSecret (uid : String) (data : Option ConnectionDetails) : Secret :=
  { Namespace := "ns"
    Name := "db-conn"
    OwnerReferences :=
      [{ APIVersion := "v1", Kind := "Database", Name := "db", UID := uid, Controller := true }]
    Data := data }

/-- A publisher whose store holds the given records and never fails. -/
def samplePublisher (records : List Secret) : APISecretPublisher :=
  { client :=
      { secrets := records, getFault := none, createFault := none, updateFault := none,
        deleteFault := none }
    typer := fun _ => { APIVersion := "v1", Kind := "Database" } }

/-- The details `user ↦ a`. -/
def userA : ConnectionDetails := (∅ : ConnectionDetails).insert "user" [97]

/-- The details `pass ↦ b`. -/
def passB : ConnectionDetails := (∅ : ConnectionDetails).insert "pass" [98]

/-- A publisher that writes its name to a log and returns `err` from both
methods. -/
def logPublisher (name : String) (err : Option GoError) :
    ManagedConnectionPublisher (List String) where
  ApplyConnection := fun log _ _ => (err, log ++ [name])
  DeleteConnection := fun log _ _ => (err, log ++ [name])

/-- A chain of three logging publishers, the second of which fails. -/
def sampleChain : PublisherChain (List String) :=
  [logPublisher "a" none, logPublisher "b" (some (GoError.new "b failed")),
   logPublisher "c" none]

end resource

/-! ### `pkg/controller/apiextensions/composed/composition.go` -/

namespace composed

/-- The type `corev1.ObjectReference`. -/
structure ObjectReference where
  APIVersion : String := ""
  Kind : String := ""
  Namespace : String := ""
  Name : String := ""
  UID : String := ""
deriving DecidableEq, Repr

/-- A reference to a secret: namespace and name. -/
structure SecretReference where
  Namespace : String
  Name : String
deriving DecidableEq, Repr

/-- A value of the interface `Composite`: the metadata `composition.go` reads,
and the remaining content as fields. -/
structure Composite where
  APIVersion : String
  Kind : String
  Namespace : String
  Name : String
  UID : String
  DeletionTimestamp : Option Nat
  Fields : List (String × String)
deriving DecidableEq, Repr

/-- A value of the interface `Composable`, the child object: the metadata
`composition.go` reads or writes, and the remaining content as fields. -/
structure Composable where
  APIVersion : String := ""
  Kind : String := ""
  Namespace : String := ""
  Name : String := ""
  GenerateName : String := ""
  UID : String := ""
  OwnerReferences : List OwnerReference := []
  WriteConnectionSecretToReference : Option SecretReference := none
  Fields : List (String × String) := []
deriving DecidableEq, Repr

/-- The type `v1alpha1.Patch`, with the fields the spec gives for it. -/
structure Patch where
  FromFieldPath : String
  ToFieldPath : String
deriving DecidableEq, Repr

/-- The type `v1alpha1.ConnectionDetail`; `Name` is a `*string`. -/
structure ConnectionDetail where
  Name : Option String
  FromConnectionSecretKey : String
deriving DecidableEq, Repr

/-- The type `v1alpha1.ComposedTemplate`; `Base` is the raw JSON. -/
structure ComposedTemplate where
  Base : String
  Patches : List Patch
  ConnectionDetails : List ConnectionDetail
deriving DecidableEq, Repr

/-- The type `Observation`. -/
structure Observation where
  Ref : ObjectReference := {}
  ConnectionDetails : Option Crossplane.ConnectionDetails := none
deriving DecidableEq

/-- The functions `composition.go` calls that are declared outside it and whose
behaviour it does not fix: the method `Patch.Patch` and `json.Unmarshal` into a
child object. Each mutates the child through its pointer and returns an error;
here each returns the error and the child as it leaves it. -/
structure Library where
  PatchPatch : Patch → Composite → Composable → Option GoError × Composable
  Unmarshal : String → Composable → Option GoError × Composable

/-- The object store client `resource.ClientApplicator`, an external
collaborator. Each field gives the result of the call with those arguments:
`Get` reads the object under a key into the supplied child, `GetSecret` reads
a secret, `Apply` takes the UID of `MustBeControllableBy` and returns the child
as the store leaves it. -/
structure ClientApplicator where
  Get : String → String → Composable → Except GoError Composable
  GetSecret : String → String → Except GoError Secret
  Delete : Composable → Option GoError
  Apply : Composable → String → Except GoError Composable

/-- A call issued on the object store client. -/
inductive StoreCall where
  | Get (ns name : String)
  | GetSecret (ns name : String)
  | Delete (obj : Composable)
  | Apply (obj : Composable) (controllableBy : String)
deriving DecidableEq, Repr

/-- The type `APIComposedReconciler`. -/
structure APIComposedReconciler where
  client : ClientApplicator

/-- The function `meta.WasDeleted`: whether the deletion timestamp is set. -/
def WasDeleted (cr : Composite) : Bool :=
  cr.DeletionTimestamp.isSome

/-- The function `meta.ReferenceTo` applied to the composite and its own
group, version and kind. -/
def ReferenceToComposite (cr : Composite) : ObjectReference :=
  { APIVersion := cr.APIVersion, Kind := cr.Kind, Namespace := cr.Namespace, Name := cr.Name,
    UID := cr.UID }

/-- The function `meta.ReferenceTo` applied to the child and its own group,
version and kind. -/
def ReferenceToComposed (o : Composable) : ObjectReference :=
  { APIVersion := o.APIVersion, Kind := o.Kind, Namespace := o.Namespace, Name := o.Name,
    UID := o.UID }

/-- The function `meta.AsOwner`; it leaves the `Controller` flag unset. -/
def AsOwner (r : ObjectReference) : OwnerReference :=
  { APIVersion := r.APIVersion, Kind := r.Kind, Name := r.Name, UID := r.UID,
    Controller := false }

/-- The function `metav1.GetControllerOf` on a child: the first owner reference
whose `Controller` flag is set. -/
def GetControllerOf (o : Composable) : Option OwnerReference :=
  o.OwnerReferences.find? (fun r => r.Controller)

/-- The loop of `meta.AddOwnerReference` over the owner references: the first
reference with the UID of `r` is replaced by `r`; when there is none, `r` is
appended. -/
def setOwnerReference (r : OwnerReference) : List OwnerReference → List OwnerReference
  | [] => [r]
  | x :: rest => if x.UID = r.UID then r :: rest else x :: setOwnerReference r rest

/-- The function `meta.AddOwnerReference`. -/
def AddOwnerReference (o : Composable) (r : OwnerReference) : Composable :=
  { o with OwnerReferences := setOwnerReference r o.OwnerReferences }

/-- The function `meta.AddControllerReference`: an error, and the child as it
is, when the child has a controller reference with another UID than that of
`r`; otherwise `meta.AddOwnerReference` and nil. -/
def AddControllerReference (o : Composable) (r : OwnerReference) :
    Option GoError × Composable :=
  match GetControllerOf o with
  | some c =>
    if c.UID ≠ r.UID then
      (some (GoError.new (o.Name ++ " is already controlled by " ++ c.Kind ++ " " ++ c.Name ++
        " (UID " ++ c.UID ++ ")")), o)
    else (none, AddOwnerReference o r)
  | none => (none, AddOwnerReference o r)

/-- Modelled from the spec: `api.NewComposableResource` and `api.FromReference`
are declared in a package that is not part of the sources. Without a reference
the new child is empty; with one, it is the child "by reference": it carries
the reference's group, version, kind, namespace, name and UID. -/
def NewComposableResource (ref : Option ObjectReference) : Composable :=
  match ref with
  | none => {}
  | some r =>
    { APIVersion := r.APIVersion, Kind := r.Kind, Namespace := r.Namespace, Name := r.Name,
      UID := r.UID }

/-- The method `APIComposedReconciler.Configure`. -/
def APIComposedReconciler.Configure (L : Library) (_r : APIComposedReconciler) (cr : Composite)
    (composed : Composable) (tmpl : ComposedTemplate) : Option GoError × Composable :=
  match L.Unmarshal tmpl.Base composed with
  | (some err, composed₁) => (some err, composed₁)
  | (none, composed₁) => (none, { composed₁ with GenerateName := cr.Name ++ "-" })

/-- The loop of `Overlay`, from index `i` on: the error of the first patch that
fails, annotated with its index, or nil, and the child as the loop leaves it. -/
def overlayLoop (L : Library) (cr : Composite) (i : Nat) (patches : List Patch)
    (composed : Composable) : Option GoError × Composable :=
  match patches with
  | [] => (none, composed)
  | patch :: rest =>
    match L.PatchPatch patch cr composed with
    | (some err, composed₁) =>
      (Wrap (some err) ("cannot apply the patch at index " ++ toString i ++ " on result"),
        composed₁)
    | (none, composed₁) => overlayLoop L cr (i + 1) rest composed₁

/-- The method `APIComposedReconciler.Overlay`. -/
def APIComposedReconciler.Overlay (L : Library) (_r : APIComposedReconciler) (cr : Composite)
    (composed : Composable) (patches : List Patch) : Option GoError × Composable :=
  match overlayLoop L cr 0 patches composed with
  | (some err, composed₁) => (some err, composed₁)
  | (none, composed₁) =>
    match AddControllerReference composed₁ (AsOwner (ReferenceToComposite cr)) with
    | (err, composed₂) => (Wrap err "cannot add controller ref to composed resource", composed₂)

/-- The method `APIComposedReconciler.GetConnectionDetails`: the details (nil
is `none`), the error, and the store calls issued. -/
def APIComposedReconciler.GetConnectionDetails (r : APIComposedReconciler)
    (composed : Composable) (filter : List ConnectionDetail) :
    Option Crossplane.ConnectionDetails × Option GoError × List StoreCall :=
  match composed.WriteConnectionSecretToReference with
  | none => (none, none, [])
  | some secretRef =>
    let res := r.client.GetSecret secretRef.Namespace secretRef.Name
    let calls := [StoreCall.GetSecret secretRef.Namespace secretRef.Name]
    let err := errOf res
    let secret : Secret :=
      match res with
      | .ok s => s
      | .error _ => { Namespace := "", Name := "", OwnerReferences := [], Data := none }
    if IgnoreNotFound err ≠ none then (none, err, calls)
    else if IsNotFound err then (none, none, calls)
    else
      let out : Crossplane.ConnectionDetails :=
        filter.foldl (fun out pair =>
          let key :=
            match pair.Name with
            | some n => n
            | none => pair.FromConnectionSecretKey
          out.insert key ((secret.get pair.FromConnectionSecretKey).getD [])) ∅
      (some out, none, calls)

/-- The method `APIComposedReconciler.Reconcile`: the observation, the error,
and the store calls issued, in order. -/
def APIComposedReconciler.Reconcile (L : Library) (r : APIComposedReconciler) (cr : Composite)
    (composedRef : ObjectReference) (tmpl : ComposedTemplate) :
    Observation × Option GoError × List StoreCall :=
  if WasDeleted cr then
    if composedRef.Name = "" then ({}, none, [])
    else
      let child := NewComposableResource (some composedRef)
      let err := r.client.Delete child
      if IgnoreNotFound err ≠ none then ({}, err, [StoreCall.Delete child])
      else ({}, none, [StoreCall.Delete child])
  else
    let resolved : Option GoError × Composable × List StoreCall :=
      if composedRef.Name = "" then
        match r.Configure L cr (NewComposableResource none) tmpl with
        | (err, composed) => (err, composed, [])
      else
        let composed := NewComposableResource (some composedRef)
        match r.client.Get composed.Namespace composed.Name composed with
        | .error err => (some err, composed, [StoreCall.Get composed.Namespace composed.Name])
        | .ok composed₁ => (none, composed₁, [StoreCall.Get composed.Namespace composed.Name])
    match resolved with
    | (some err, _, calls) => ({}, some err, calls)
    | (none, composed, calls) =>
      match r.Overlay L cr composed tmpl.Patches with
      | (some err, _) => ({}, some err, calls)
      | (none, composed₁) =>
        match r.client.Apply composed₁ cr.UID with
        | .error err => ({}, some err, calls ++ [StoreCall.Apply composed₁ cr.UID])
        | .ok composed₂ =>
          match r.GetConnectionDetails composed₂ tmpl.ConnectionDetails with
          | (_, some err, calls₁) =>
            ({}, some err, calls ++ [StoreCall.Apply composed₁ cr.UID] ++ calls₁)
          | (conn, none, calls₁) =>
            ({ Ref := ReferenceToComposed composed₂, ConnectionDetails := conn }, none,
              calls ++ [StoreCall.Apply composed₁ cr.UID] ++ calls₁)

/-- The output key of a selector: `Name` when given, else
`FromConnectionSecretKey`. -/
def ConnectionDetail.outputKey (sel : ConnectionDetail) : String :=
  match sel.Name with
  | some n => n
  | none => sel.FromConnectionSecretKey

/-- The child after every patch of `patches` has been run on it, one after the
other in list order, whatever each returned: a left fold. -/
def patched (L : Library) (cr : Composite) (patches : List Patch) (composed : Composable) :
    Composable :=
  patches.foldl (fun o patch => (L.PatchPatch patch cr o).2) composed

/-- A library for the examples: a patch copies the composite's field
`FromFieldPath` to the child's field `ToFieldPath` and fails when the composite
has no such field; unmarshalling fails on empty input and otherwise stores the
input as a field. -/
def sampleLibrary : Library where
  PatchPatch := fun p cr o =>
    match cr.Fields.lookup p.FromFieldPath with
    | none => (some (GoError.new ("no field " ++ p.FromFieldPath)), o)
    | some v =>
      (none, { o with
        Fields := (p.ToFieldPath, v) :: o.Fields.filter (fun kv => kv.1 != p.ToFieldPath) })
  Unmarshal := fun raw o =>
    if raw = "" then (some (GoError.new "unexpected end of JSON input"), o)
    else (none, { o with Fields := [("base", raw)] })

/-- A store for the examples. It holds the child `ns/child`, which writes its
connection secret to `ns/child-conn`, and that secret, with the one key
`endpoint`. `Apply` names an unnamed child after its generated-name stem. -/
def sampleClient : ClientApplicator where
  Get := fun _ name o =>
    if name = "child" then
      .ok { o with
        Fields := [("size", "0")]
        WriteConnectionSecretToReference := some { Namespace := "ns", Name := "child-conn" } }
    else .error (GoError.apiNotFound name)
  GetSecret := fun _ name =>
    if name = "child-conn" then
      .ok { Namespace := "ns", Name := "child-conn", OwnerReferences := [],
            Data := some ((∅ : Crossplane.ConnectionDetails).insert "endpoint" [1, 2]) }
    else .error (GoError.apiNotFound name)
  Delete := fun o => if o.Name = "child" then none else some (GoError.apiNotFound o.Name)
  Apply := fun o _ =>
    .ok { o with Name := if o.Name = "" then o.GenerateName ++ "x" else o.Name }

def sampleReconciler : APIComposedReconciler := { client := sampleClient }

/-- A composite with the fields `x = 1` and `y = 2`. -/
def sampleComposite (deleted : Option Nat) : Composite :=
  { APIVersion := "example.org/v1", Kind := "Composite", Namespace := "ns", Name := "cr",
    UID := "uid-cr", DeletionTimestamp := deleted, Fields := [("x", "1"), ("y", "2")] }

/-- A reference to the child `ns/child`. -/
def childRef : ObjectReference :=
  { APIVersion := "example.org/v1", Kind := "Child", Namespace := "ns", Name := "child",
    UID := "uid-child" }

/-- A template whose two patches write the same field of the child, and which
selects the secret's `endpoint` under the name `url` and a key the secret does
not have. -/
def sampleTemplate : ComposedTemplate :=
  { Base := "base-json"
    Patches := [⟨"x", "size"⟩, ⟨"y", "size"⟩]
    ConnectionDetails := [⟨some "url", "endpoint"⟩, ⟨none, "password"⟩] }

/-- The child the sample reconciler instantiates for the sample composite,
after the overlay. -/
def overlaidChild : Composable :=
  { GenerateName := "cr-"
    Fields := [("size", "2"), ("base", "base-json")]
    OwnerReferences := [AsOwner (ReferenceToComposite (sampleComposite none))] }

/-- A child that is controlled by another composite, with the UID `uid-other`. -/
def foreignChild : Composable :=
  { Name := "child"
    Fields := [("size", "0")]
    OwnerReferences :=
      [{ APIVersion := "example.org/v1", Kind := "Composite", Name := "other",
         UID := "uid-other", Controller := true }] }

/-- A child that is controlled by the sample composite and has a second owner. -/
def ownedChild : Composable :=
  { Name := "child"
    OwnerReferences :=
      [{ APIVersion := "v1", Kind := "Other", Name := "o", UID := "uid-o", Controller := false },
       { APIVersion := "example.org/v0", Kind := "Composite", Name := "cr", UID := "uid-cr",
         Controller := true }] }

end composed

/-! ### `pkg/clients/gcp/connection/connection.go` -/

namespace connection

/-- The type `v1alpha1.ConnectionParameters`, with the two fields
`connection.go` reads. -/
structure ConnectionParameters where
  Network : String
  ReservedPeeringRanges : List String
deriving DecidableEq, Repr

/-- The type `servicenetworking.Connection`, with the fields `connection.go`
reads or writes. -/
structure Connection where
  Network : String := ""
  ReservedPeeringRanges : List String := []
  Peering : String := ""
  Service : String := ""
  ForceSendFields : List String := []
deriving DecidableEq, Repr

/-- The function `FromParameters`. -/
def FromParameters (p : ConnectionParameters) : Connection :=
  { Network := p.Network
    ReservedPeeringRanges := p.ReservedPeeringRanges
    ForceSendFields := ["ReservedPeeringRanges"] }

/-- The order `sort.Strings` sorts by: Go compares strings byte by byte, which
for UTF-8 is the lexicographic order of their characters. -/
def stringLE (a b : String) : Prop := a.data ≤ b.data

instance stringLE.decidable : DecidableRel stringLE :=
  fun a b => inferInstanceAs (Decidable (a.data ≤ b.data))

/-- The function `sort.Strings`: the slice in increasing order. The order is
total and strings that compare equal are the same string, so every sorting
algorithm leaves the same slice; insertion sort stands for the library's. -/
def sortStrings (l : List String) : List String :=
  l.insertionSort stringLE

/-- The loop `for i := range p.ReservedPeeringRanges` of `UpToDate`, over the
indices still to visit: `some false` at the first index where the two slices
differ, `some true` when there is none, and `none` when an index is out of
range for one of the slices, which is a run-time panic. -/
def compareLoop (ps os : List String) : List Nat → Option Bool
  | [] => some true
  | i :: rest =>
    match ps[i]?, os[i]? with
    | some a, some b => if a != b then some false else compareLoop ps os rest
    | _, _ => none

/-- What `UpToDate` leaves behind: its result, and the two slices, which
`sort.Strings` sorts in place. -/
structure UpToDateOutcome where
  result : Bool
  desired : List String
  observed : List String
deriving DecidableEq, Repr

/-- The function `UpToDate`, on the parameters and the connection `observed`
points to. The result is `none` when the function panics. -/
def UpToDate (p : ConnectionParameters) (observed : Connection) : Option UpToDateOutcome :=
  if p.ReservedPeeringRanges.length ≠ observed.ReservedPeeringRanges.length then
    some ⟨false, p.ReservedPeeringRanges, observed.ReservedPeeringRanges⟩
  else
    let ps := sortStrings p.ReservedPeeringRanges
    let os := sortStrings observed.ReservedPeeringRanges
    match compareLoop ps os (List.range ps.length) with
    | none => none
    | some b => some ⟨b, ps, os⟩

end connection

/-! ## Theorems -/

namespace compute

/-- C1. `external.Create` on a Network: a provider spec with a non-empty name
is left as it is; a missing provider spec, or one with an empty name, gets the
name "vpc-" followed by the UID, the other fields being the zero value,
respectively kept. In each case the one provider call issued is an Insert whose
body is generated from the spec carrying that name. Whatever the provider
answers, a second Create on the same resource, and a second Create on the
resource as the first one left it, issue the same Insert. -/
theorem create_names_network {ρ τ ν : Type} [Inhabited ρ] (c : external ρ τ ν)
    (cr : Network ρ τ) :
    (∀ spec, cr.SpecForProvider = some spec → spec.Name ≠ "" →
      (c.Create (.network cr)).mg = .network cr ∧
      (c.Create (.network cr)).calls =
        [ProviderCall.Insert c.projectID (c.GenerateGCPNetworkSpec spec)]) ∧
    (cr.SpecForProvider = none →
      (c.Create (.network cr)).mg =
        .network { cr with
          SpecForProvider := some { Name := "vpc-" ++ cr.UID, Rest := default } } ∧
      (c.Create (.network cr)).calls =
        [ProviderCall.Insert c.projectID
          (c.GenerateGCPNetworkSpec { Name := "vpc-" ++ cr.UID, Rest := default })]) ∧
    (∀ spec, cr.SpecForProvider = some spec → spec.Name = "" →
      (c.Create (.network cr)).mg =
        .network { cr with
          SpecForProvider := some { Name := "vpc-" ++ cr.UID, Rest := spec.Rest } } ∧
      (c.Create (.network cr)).calls =
        [ProviderCall.Insert c.projectID
          (c.GenerateGCPNetworkSpec { Name := "vpc-" ++ cr.UID, Rest := spec.Rest })]) ∧
    (∀ svc : NetworksService ν,
      ({ c with networksService := svc }.Create (.network cr)).calls =
        (c.Create (.network cr)).calls ∧
      ({ c with networksService := svc }.Create (c.Create (.network cr)).mg).calls =
        (c.Create (.network cr)).calls) := by
  refine ⟨?_, ?_, ?_, ?_⟩
  · intro spec hs hn
    cases cr with
    | mk uid sp st =>
      simp only at hs
      subst hs
      simp only [external.Create, if_neg hn]
      cases c.networksService.Insert c.projectID (c.GenerateGCPNetworkSpec spec) <;> simp
  · intro hs
    cases cr with
    | mk uid sp st =>
      simp only at hs
      subst hs
      simp only [external.Create, namePrefix, if_true]
      cases c.networksService.Insert c.projectID
        (c.GenerateGCPNetworkSpec { Name := "vpc" ++ "-" ++ uid, Rest := default }) <;>
        exact ⟨rfl, rfl⟩
  · intro spec hs hn
    cases cr with
    | mk uid sp st =>
      simp only at hs
      subst hs
      simp only [external.Create, namePrefix, if_pos hn]
      cases c.networksService.Insert c.projectID
        (c.GenerateGCPNetworkSpec { Name := "vpc" ++ "-" ++ uid, Rest := spec.Rest }) <;>
        exact ⟨rfl, rfl⟩
  · intro svc
    have hne : ∀ u : String, ¬ (namePrefix ++ "-" ++ u = "") := by
      intro u h
      have := congrArg String.length h
      simp [namePrefix, String.length_append] at this
      exact absurd this.1 (by decide)
    have calls_eq : ∀ (d : external ρ τ ν) (n : Network ρ τ) (sp : GCPNetworkSpec ρ),
        n.SpecForProvider = some sp → sp.Name ≠ "" →
        (d.Create (.network n)).calls =
          [ProviderCall.Insert d.projectID (d.GenerateGCPNetworkSpec sp)] ∧
        (d.Create (.network n)).mg = .network n := by
      intro d n sp hsp hname
      cases n with
      | mk uid o st =>
        simp only at hsp
        subst hsp
        simp only [external.Create, if_neg hname]
        split <;> exact ⟨rfl, rfl⟩
    have fresh : ∀ (d : external ρ τ ν) (n : Network ρ τ),
        (∀ sp, n.SpecForProvider = some sp → sp.Name = "") →
        ∃ sp, sp.Name ≠ "" ∧
          (∀ svc : NetworksService ν,
            ({ d with networksService := svc }.Create (.network n)).calls =
              [ProviderCall.Insert d.projectID (d.GenerateGCPNetworkSpec sp)] ∧
            ({ d with networksService := svc }.Create (.network n)).mg =
              .network { n with SpecForProvider := some sp }) := by
      intro d n hsp
      cases n with
      | mk uid o st =>
        cases o with
        | none =>
          refine ⟨{ Name := namePrefix ++ "-" ++ uid, Rest := default }, hne uid, ?_⟩
          intro svc
          simp only [external.Create, if_true]
          split <;> exact ⟨rfl, rfl⟩
        | some sp =>
          have hn : sp.Name = "" := hsp sp rfl
          refine ⟨{ sp with Name := namePrefix ++ "-" ++ uid }, hne uid, ?_⟩
          intro svc
          simp only [external.Create, if_pos hn]
          split <;> exact ⟨rfl, rfl⟩
    by_cases hinit : ∀ sp, cr.SpecForProvider = some sp → sp.Name = ""
    · obtain ⟨sp, hsp, hall⟩ := fresh c cr hinit
      have h1 := hall c.networksService
      have h2 := hall svc
      have hc : ({ c with networksService := c.networksService } : external ρ τ ν) = c := rfl
      rw [hc] at h1
      refine ⟨h2.1.trans h1.1.symm, ?_⟩
      rw [h1.2, h1.1]
      exact (calls_eq { c with networksService := svc } _ sp rfl hsp).1
    · push_neg at hinit
      obtain ⟨sp, hsp, hname⟩ := hinit
      have h1 := calls_eq c cr sp hsp hname
      have h2 := calls_eq { c with networksService := svc } cr sp hsp hname
      refine ⟨h2.1.trans h1.1.symm, ?_⟩
      rw [h1.2, h1.1]
      exact h2.1

/-- Witness for C1: a Network without provider spec and with UID `u1` is named
`vpc-u1`, both when the provider accepts the Insert and when it rejects it. -/
theorem create_names_network_witness :
    ((sampleExternal (okService ⟨"", 0⟩)).Create (.network bareNetwork)).mg =
        .network { bareNetwork with SpecForProvider := some { Name := "vpc-u1", Rest := 0 } } ∧
      ((sampleExternal (failService (GoError.new "boom"))).Create (.network bareNetwork)).calls =
        [ProviderCall.Insert "proj" { Name := "vpc-u1", Rest := 0 }] ∧
      ((sampleExternal (okService ⟨"", 0⟩)).Create (.network namedNetwork)).mg =
        .network namedNetwork :=
  ⟨((create_names_network (sampleExternal (okService ⟨"", 0⟩)) bareNetwork).2.1 rfl).1,
   ((create_names_network (sampleExternal (failService (GoError.new "boom"))) bareNetwork).2.1
      rfl).2,
   ((create_names_network (sampleExternal (okService ⟨"", 0⟩)) namedNetwork).1
      { Name := "test-network", Rest := 7 } rfl (by decide)).1⟩

/-- C7. `external.Observe` on a Network. Without provider spec, or with an empty
name, it reports `ResourceExists = false`, no error, leaves the resource as it
is and issues no provider call. Otherwise it issues exactly one Get for the
name: a not-found error gives `ResourceExists = false`, no error and an
untouched resource; any other error is returned as it is, with the resource
untouched; a successful Get stores the status generated from the observed
network and reports `ResourceExists = true`. -/
theorem observe_network {ρ τ ν : Type} (c : external ρ τ ν) (cr : Network ρ τ) :
    ((cr.SpecForProvider = none ∨ ∃ spec, cr.SpecForProvider = some spec ∧ spec.Name = "") →
      c.Observe (.network cr) = ⟨{ ResourceExists := false }, none, .network cr, []⟩) ∧
    (∀ spec, cr.SpecForProvider = some spec → spec.Name ≠ "" →
      (c.Observe (.network cr)).calls = [ProviderCall.Get c.projectID spec.Name] ∧
      (∀ e, c.networksService.Get c.projectID spec.Name = .error e →
        IsErrorNotFound (some e) = true →
        c.Observe (.network cr) =
          ⟨{ ResourceExists := false }, none, .network cr,
            [ProviderCall.Get c.projectID spec.Name]⟩) ∧
      (∀ e, c.networksService.Get c.projectID spec.Name = .error e →
        IsErrorNotFound (some e) = false →
        c.Observe (.network cr) =
          ⟨{}, some e, .network cr, [ProviderCall.Get c.projectID spec.Name]⟩) ∧
      (∀ observed, c.networksService.Get c.projectID spec.Name = .ok observed →
        c.Observe (.network cr) =
          ⟨{ ResourceExists := true }, none,
            .network { cr with StatusAtProvider := c.GenerateGCPNetworkStatus observed },
            [ProviderCall.Get c.projectID spec.Name]⟩)) := by
  constructor
  · rintro (h | ⟨spec, h, hn⟩)
    · simp [external.Observe, h]
    · simp [external.Observe, h, hn]
  · intro spec h hn
    refine ⟨?_, ?_, ?_, ?_⟩
    · simp only [external.Observe, h, if_neg hn]
      split
      · rfl
      · split <;> rfl
    · intro e he hnf
      simp [external.Observe, h, hn, he, errOf, hnf]
    · intro e he hnf
      simp [external.Observe, h, hn, he, errOf, hnf]
    · intro observed ho
      simp [external.Observe, h, hn, ho, errOf, IsErrorNotFound]

/-- Witness for C7, on a Network named `test-network`: a provider that knows the
network, one that reports not-found, and one that fails otherwise. -/
theorem observe_network_witness :
    (sampleExternal (okService ⟨"seen", 1⟩)).Observe (.network namedNetwork) =
        ⟨{ ResourceExists := true }, none,
          .network { namedNetwork with StatusAtProvider := "seen" },
          [ProviderCall.Get "proj" "test-network"]⟩ ∧
      (sampleExternal (failService (GoError.providerNotFound "gone"))).Observe
          (.network namedNetwork) =
        ⟨{ ResourceExists := false }, none, .network namedNetwork,
          [ProviderCall.Get "proj" "test-network"]⟩ ∧
      (sampleExternal (failService (GoError.new "boom"))).Observe (.network namedNetwork) =
        ⟨{}, some (GoError.new "boom"), .network namedNetwork,
          [ProviderCall.Get "proj" "test-network"]⟩ ∧
      (sampleExternal (okService ⟨"seen", 1⟩)).Observe (.network bareNetwork) =
        ⟨{ ResourceExists := false }, none, .network bareNetwork, []⟩ :=
  ⟨((observe_network (sampleExternal (okService ⟨"seen", 1⟩)) namedNetwork).2
      { Name := "test-network", Rest := 7 } rfl (by decide)).2.2.2 ⟨"seen", 1⟩ rfl,
   ((observe_network (sampleExternal (failService (GoError.providerNotFound "gone")))
      namedNetwork).2 { Name := "test-network", Rest := 7 } rfl (by decide)).2.1
      (GoError.providerNotFound "gone") rfl rfl,
   ((observe_network (sampleExternal (failService (GoError.new "boom"))) namedNetwork).2
      { Name := "test-network", Rest := 7 } rfl (by decide)).2.2.1 (GoError.new "boom") rfl rfl,
   (observe_network (sampleExternal (okService ⟨"seen", 1⟩)) bareNetwork).1 (Or.inl rfl)⟩

/-- On a Network whose provider spec is present, `external.Delete` issues
exactly one provider Delete for the spec's name; it returns nil exactly when
that call returned nil or a not-found error, and returns any other error of
the call as it is. -/
theorem delete_with_spec {ρ τ ν : Type} (c : external ρ τ ν) (cr : Network ρ τ)
    (spec : GCPNetworkSpec ρ) (h : cr.SpecForProvider = some spec) :
    ∃ err, c.Delete (.network cr) = some (err, [ProviderCall.Delete c.projectID spec.Name]) ∧
      (err = none ↔
        (c.networksService.Delete c.projectID spec.Name = none ∨
          IsErrorNotFound (c.networksService.Delete c.projectID spec.Name) = true)) ∧
      (err ≠ none → err = c.networksService.Delete c.projectID spec.Name) := by
  simp only [external.Delete, h]
  cases hd : c.networksService.Delete c.projectID spec.Name with
  | none => exact ⟨none, by simp [IsErrorNotFound]⟩
  | some e =>
    by_cases hnf : IsErrorNotFound (some e) = true
    · exact ⟨none, by simp [hnf]⟩
    · exact ⟨some e, by simp [hnf]⟩

/-- Witness for `delete_with_spec`: deleting the Network named `test-network`
on a provider that reports not-found. -/
theorem delete_with_spec_witness :
    ∃ err, (sampleExternal (failService (GoError.providerNotFound "gone"))).Delete
        (.network namedNetwork) = some (err, [ProviderCall.Delete "proj" "test-network"]) ∧
      (err = none ↔
        ((failService (ν := GCPNetworkSpec Nat) (GoError.providerNotFound "gone")).Delete
            "proj" "test-network" = none ∨
          IsErrorNotFound
            ((failService (ν := GCPNetworkSpec Nat) (GoError.providerNotFound "gone")).Delete
              "proj" "test-network") = true)) ∧
      (err ≠ none →
        err = (failService (ν := GCPNetworkSpec Nat) (GoError.providerNotFound "gone")).Delete
          "proj" "test-network") :=
  delete_with_spec (sampleExternal (failService (GoError.providerNotFound "gone")))
    namedNetwork { Name := "test-network", Rest := 7 } rfl

/-- C6. The claim is that `external.Delete` on any Network returns nil exactly
when the provider's delete returns nil or a not-found error. On the Network
`bareNetwork`, whose provider spec is missing, `external.Delete` does not
return at all: it panics on the nil pointer before any provider call is
built, although the provider would have returned nil for the delete.
`external.Create` and `external.Observe` both return on the same Network,
having tested the same pointer for nil. -/
theorem delete_without_spec_panics :
    (sampleExternal (okService ⟨"", 0⟩)).Delete (.network bareNetwork) = none ∧
      (okService (ν := GCPNetworkSpec Nat) ⟨"", 0⟩).Delete "proj" "" = none ∧
      ((sampleExternal (okService ⟨"", 0⟩)).Create (.network bareNetwork)).err = none ∧
      ((sampleExternal (okService ⟨"", 0⟩)).Observe (.network bareNetwork)).err = none :=
  ⟨rfl, rfl, rfl, rfl⟩

end compute

namespace resource

/-- Setting the entries of a map `l` one after the other into `d` gives the map
that reads `l` first and `d` for the keys `l` does not have. -/
theorem foldl_insert_lookup (l : List (Σ _ : String, Bytes)) (nd : l.NodupKeys)
    (d : ConnectionDetails) (k : String) :
    (l.foldl (fun d kv => d.insert kv.1 kv.2) d).lookup k =
      match l.dlookup k with
      | some v => some v
      | none => d.lookup k := by
  induction l generalizing d with
  | nil => simp
  | cons e l ih =>
    obtain ⟨hk, nd₁⟩ := List.nodupKeys_cons.mp nd
    rw [List.foldl_cons, ih nd₁]
    obtain ⟨a, b⟩ := e
    by_cases h : k = a
    · subst h
      have : l.dlookup k = none := List.dlookup_eq_none.mpr hk
      simp [this, List.dlookup_cons_eq]
    · rw [List.dlookup_cons_ne l ⟨a, b⟩ h, AList.lookup_insert_ne h]

/-- Replacing the records that satisfy `p` by a record that satisfies `p`
replaces the first record found by `p`. -/
theorem find_map_replace {α : Type} (p : α → Bool) (s : α) (hs : p s = true) (l : List α) :
    (l.map (fun x => if p x = true then s else x)).find? p = (l.find? p).map (fun _ => s) := by
  induction l with
  | nil => rfl
  | cons x l ih =>
    by_cases hx : p x = true
    · simp [List.find?_cons, hx, hs]
    · simp [List.find?_cons, hx, ih]

/-- A record found under a key carries that key. -/
theorem lookup_key {c : Client} {ns name : String} {s : Secret}
    (h : c.lookup ns name = some s) : s.Namespace = ns ∧ s.Name = name := by
  have := List.find?_some h
  simpa [Secret.hasKey] using this

/-- The mutation of `ApplyConnection` on a secret controlled by the resource:
no error, the same key and owners, and the data read as the details first. -/
theorem mutate_owned (E : ErrorStrings) (mg : Managed) (c : ConnectionDetails) (s₀ : Secret)
    (hown : ∃ ref, GetControllerOf s₀ = some ref ∧ ref.UID = mg.UID) :
    ∃ s₁, ApplyConnectionMutate E mg c s₀ = (none, s₁) ∧
      s₁.Namespace = s₀.Namespace ∧ s₁.Name = s₀.Name ∧
      s₁.OwnerReferences = s₀.OwnerReferences ∧
      ∀ k, s₁.get k =
        match c.lookup k with
        | some v => some v
        | none => s₀.get k := by
  obtain ⟨ref, hr, hu⟩ := hown
  refine ⟨{ s₀ with Data := some (c.entries.foldl (fun d kv => d.insert kv.1 kv.2)
      (match s₀.Data with
       | none => ∅
       | some d => d)) }, ?_, rfl, rfl, rfl, ?_⟩
  · simp only [ApplyConnectionMutate, hr, hu, ne_eq, not_true_eq_false, if_false]
  · intro k
    simp only [Secret.get]
    rw [foldl_insert_lookup c.entries c.nodupKeys]
    cases hd : s₀.Data <;> rfl

/-- The mutation of `ApplyConnection` on a secret not controlled by the
resource returns the conflict error. -/
theorem mutate_foreign (E : ErrorStrings) (mg : Managed) (c : ConnectionDetails) (s₀ : Secret)
    (hnot : GetControllerOf s₀ = none ∨
      ∃ ref, GetControllerOf s₀ = some ref ∧ ref.UID ≠ mg.UID) :
    ApplyConnectionMutate E mg c s₀ = (some (GoError.new E.errSecretConflict), s₀) := by
  rcases hnot with h | ⟨ref, hr, hu⟩
  · simp [ApplyConnectionMutate, h]
  · simp [ApplyConnectionMutate, hr, hu]

/-- C2. Let the store hold a record under the connection secret's key, and let
that record be controlled by the resource. Then `ApplyConnection` succeeds
whenever the store serves the read and the write, and after any successful
`ApplyConnection` the store holds under that key a record with the same owners
whose data is the prior data overridden by the details: a key of the details
reads the details' value, any other key reads what it read before. In
particular, when every entry of the details was already in the record, every
key reads what it read before. -/
theorem apply_connection_merges (E : ErrorStrings) (a : APISecretPublisher) (mg : Managed)
    (c : ConnectionDetails) (s₀ : Secret)
    (hrec : a.client.lookup mg.Namespace mg.SecretName = some s₀)
    (hown : ∃ ref, GetControllerOf s₀ = some ref ∧ ref.UID = mg.UID) :
    (a.client.getFault = none → a.client.updateFault = none →
      (a.ApplyConnection E mg c).1 = none) ∧
    ((a.ApplyConnection E mg c).1 = none →
      ∃ s₁, (a.ApplyConnection E mg c).2.client.lookup mg.Namespace mg.SecretName = some s₁ ∧
        s₁.OwnerReferences = s₀.OwnerReferences ∧
        (∀ k, s₁.get k =
          match c.lookup k with
          | some v => some v
          | none => s₀.get k) ∧
        ((∀ k v, c.lookup k = some v → s₀.get k = some v) → ∀ k, s₁.get k = s₀.get k)) := by
  obtain ⟨s₁, hmut, hns, hname, howners, hdata⟩ := mutate_owned E mg c s₀ hown
  obtain ⟨kns, kname⟩ := lookup_key hrec
  have hsame : ∀ s : Secret, (∀ k, s.get k =
      match c.lookup k with
      | some v => some v
      | none => s₀.get k) →
      (∀ k v, c.lookup k = some v → s₀.get k = some v) → ∀ k, s.get k = s₀.get k := by
    intro s hs hall k
    rw [hs k]
    cases hc : c.lookup k with
    | none => rfl
    | some v => exact (hall k v hc).symm
  have hkey₁ : Secret.hasKey mg.Namespace mg.SecretName s₁ = true := by
    simp [Secret.hasKey, hns, hname, kns, kname]
  cases hg : a.client.getFault with
  | some m =>
    refine ⟨fun h => by simp at h, ?_⟩
    intro hok
    simp [APISecretPublisher.ApplyConnection, CreateOrUpdate, ConnectionSecretFor,
      Client.Get, hg, IsNotFound, Wrap] at hok
  | none =>
    have hget : a.client.Get mg.Namespace mg.SecretName = .ok s₀ := by
      simp [Client.Get, hg, hrec]
    by_cases heq : Secret.DeepEqual s₀ s₁ = true
    · have hres : a.ApplyConnection E mg c = (none, a) := by
        simp [APISecretPublisher.ApplyConnection, CreateOrUpdate, ConnectionSecretFor, hget,
          hmut, heq, Wrap]
      rw [hres]
      refine ⟨fun _ _ => rfl, fun _ => ?_⟩
      have hd : ∀ k, s₀.get k = s₁.get k := by
        intro k
        simp only [Secret.DeepEqual, Bool.and_eq_true, decide_eq_true_eq] at heq
        obtain ⟨_, hdat⟩ := heq
        simp only [Secret.get]
        cases h0 : s₀.Data with
        | none =>
          cases h1 : s₁.Data with
          | none => rfl
          | some y => simp [h0, h1] at hdat
        | some x =>
          cases h1 : s₁.Data with
          | none => simp [h0, h1] at hdat
          | some y =>
            simp only [h0, h1, decide_eq_true_eq] at hdat
            exact AList.perm_lookup hdat
      refine ⟨s₀, hrec, rfl, ?_, fun _ _ => rfl⟩
      intro k
      exact (hd k).trans (hdata k)
    · have hupd : a.ApplyConnection E mg c =
          (Wrap (a.client.Update s₁).1 E.errCreateOrUpdateSecret,
            { a with client := (a.client.Update s₁).2 }) := by
        simp [APISecretPublisher.ApplyConnection, CreateOrUpdate, ConnectionSecretFor, hget,
          hmut, heq]
      have hrec₁ : a.client.lookup s₁.Namespace s₁.Name = some s₀ := by
        rw [hns, hname, kns, kname]
        exact hrec
      rw [hupd]
      cases hu : a.client.updateFault with
      | some m =>
        refine ⟨fun _ h => by simp at h, ?_⟩
        intro hok
        simp [Client.Update, hu, Wrap] at hok
      | none =>
        have hU : a.client.Update s₁ =
            (none, { a.client with secrets := a.client.secrets.map (fun x =>
              if Secret.hasKey s₁.Namespace s₁.Name x = true then s₁ else x) }) := by
          simp [Client.Update, hu, hrec₁]
        rw [hU]
        refine ⟨fun _ _ => rfl, fun _ => ⟨s₁, ?_, howners, hdata, hsame s₁ hdata⟩⟩
        have hk : Secret.hasKey s₁.Namespace s₁.Name = Secret.hasKey mg.Namespace mg.SecretName := by
          rw [hns, hname, kns, kname]
        simp only [Client.lookup, hk]
        rw [find_map_replace _ s₁ hkey₁]
        have : a.client.secrets.find? (Secret.hasKey mg.Namespace mg.SecretName) = some s₀ := hrec
        rw [this]
        rfl

/-- Witness for C2: the record holds `user ↦ a` and is controlled by the
resource; publishing `pass ↦ b` leaves a record that reads both keys. -/
theorem apply_connection_merges_witness :
    ∃ s₁, ((samplePublisher [sampleSecret "uid-db" (some userA)]).ApplyConnection sampleStrings
        sampleManaged passB).2.client.lookup "ns" "db-conn" = some s₁ ∧
      s₁.get "user" = some [97] ∧ s₁.get "pass" = some [98] ∧ s₁.get "other" = none := by
  obtain ⟨s₁, h₁, _, h₂, _⟩ :=
    (apply_connection_merges sampleStrings (samplePublisher [sampleSecret "uid-db" (some userA)])
      sampleManaged passB (sampleSecret "uid-db" (some userA)) rfl
      ⟨_, rfl, rfl⟩).2 rfl
  exact ⟨s₁, h₁, by rw [h₂]; decide, by rw [h₂]; decide, by rw [h₂]; decide⟩

/-- C3. Let the store hold a record under the connection secret's key, and let
that record not be controlled by the resource: it has no controller reference,
or one with another UID. Then `ApplyConnection` leaves the store exactly as it
was, and, the store serving the read, returns the conflict error (annotated
by `errors.Wrap`, as every error of `ApplyConnection` is). -/
theorem apply_connection_conflict (E : ErrorStrings) (a : APISecretPublisher) (mg : Managed)
    (c : ConnectionDetails) (s₀ : Secret)
    (hrec : a.client.lookup mg.Namespace mg.SecretName = some s₀)
    (hnot : GetControllerOf s₀ = none ∨
      ∃ ref, GetControllerOf s₀ = some ref ∧ ref.UID ≠ mg.UID) :
    (a.ApplyConnection E mg c).2 = a ∧
    (a.ApplyConnection E mg c).1 ≠ none ∧
    (a.client.getFault = none →
      (a.ApplyConnection E mg c).1 =
        some (GoError.wrap (GoError.new E.errSecretConflict) E.errCreateOrUpdateSecret)) := by
  have hmut := mutate_foreign E mg c s₀ hnot
  cases hg : a.client.getFault with
  | some m =>
    simp [APISecretPublisher.ApplyConnection, CreateOrUpdate, ConnectionSecretFor,
      Client.Get, hg, IsNotFound, Wrap]
  | none =>
    have hget : a.client.Get mg.Namespace mg.SecretName = .ok s₀ := by
      simp [Client.Get, hg, hrec]
    simp [APISecretPublisher.ApplyConnection, CreateOrUpdate, ConnectionSecretFor, hget,
      hmut, Wrap]

/-- Witness for C3: the record is controlled by another UID; publishing
`pass ↦ b` fails with the conflict error and the store still reads only
`user ↦ a`. -/
theorem apply_connection_conflict_witness :
    ((samplePublisher [sampleSecret "uid-other" (some userA)]).ApplyConnection sampleStrings
        sampleManaged passB).2 = samplePublisher [sampleSecret "uid-other" (some userA)] ∧
      ((samplePublisher [sampleSecret "uid-other" (some userA)]).ApplyConnection sampleStrings
        sampleManaged passB).1 =
        some (GoError.wrap (GoError.new "secret conflict") "cannot write secret") :=
  have h := apply_connection_conflict sampleStrings
    (samplePublisher [sampleSecret "uid-other" (some userA)]) sampleManaged passB
    (sampleSecret "uid-other" (some userA)) rfl (Or.inr ⟨_, rfl, by decide⟩)
  ⟨h.1, h.2.2 rfl⟩

/-- A loop over a list that returns at the first error: the generic form of
the two methods of `PublisherChain`. `run` is any function that satisfies the
two equations of such a loop over the step `f`. -/
theorem chain_first_error {π σ : Type} (f : π → σ → Option GoError × σ)
    (run : List π → σ → Option GoError × σ)
    (hnil : ∀ w, run [] w = (none, w))
    (hcons : ∀ p ps w, run (p :: ps) w =
      match f p w with
      | (some e, w₁) => (some e, w₁)
      | (none, w₁) => run ps w₁) :
    ∀ (ps : List π) (w : σ),
      (∀ i p e, ps[i]? = some p →
        (∀ j q, j < i → ps[j]? = some q →
          (f q ((ps.take j).foldl (fun w p => (f p w).2) w)).1 = none) →
        (f p ((ps.take i).foldl (fun w p => (f p w).2) w)).1 = some e →
        run ps w = (some e, (ps.take (i + 1)).foldl (fun w p => (f p w).2) w)) ∧
      ((∀ j q, ps[j]? = some q →
          (f q ((ps.take j).foldl (fun w p => (f p w).2) w)).1 = none) →
        run ps w = (none, ps.foldl (fun w p => (f p w).2) w)) ∧
      ((run ps w).1 = none →
        ∀ j q, ps[j]? = some q →
          (f q ((ps.take j).foldl (fun w p => (f p w).2) w)).1 = none) := by
  intro ps
  induction ps with
  | nil =>
    intro w
    refine ⟨?_, ?_, ?_⟩
    · intro i p e h; simp at h
    · intro _; simp [hnil]
    · intro _ j q h; simp at h
  | cons p0 ps ih =>
    intro w
    rcases hf : f p0 w with ⟨r, w₁⟩
    have hrun := hcons p0 ps w
    rw [hf] at hrun
    obtain ⟨ih1, ih2, ih3⟩ := ih w₁
    refine ⟨?_, ?_, ?_⟩
    · intro i p e hp hpre hfail
      cases i with
      | zero =>
        simp at hp
        subst hp
        simp [hf] at hfail
        subst hfail
        simp [hrun, hf]
      | succ i =>
        have h0 := hpre 0 p0 (Nat.succ_pos i) (by simp)
        simp [hf] at h0
        subst h0
        simp only at hrun
        rw [hrun]
        simp only [List.take_succ_cons, List.foldl_cons, hf]
        apply ih1 i p e (by simpa using hp)
        · intro j q hj hq
          have := hpre (j + 1) q (Nat.succ_lt_succ hj) (by simpa using hq)
          simpa [hf] using this
        · simpa [hf] using hfail
    · intro hall
      have h0 := hall 0 p0 (by simp)
      simp [hf] at h0
      subst h0
      simp only at hrun
      rw [hrun]
      simp only [List.foldl_cons, hf]
      apply ih2
      intro j q hq
      have := hall (j + 1) q (by simpa using hq)
      simpa [hf] using this
    · intro hnone j q hq
      cases r with
      | some e => simp [hrun] at hnone
      | none =>
        simp only at hrun
        cases j with
        | zero =>
          simp at hq
          subst hq
          simp [hf]
        | succ j =>
          have := ih3 (by rw [← hrun]; exact hnone) j q (by simpa using hq)
          simpa [hf] using this

/-- C5. Both methods of a `PublisherChain` behave alike. If the publisher at
index `i`, invoked in the world left by the publishers before it, all of which
returned nil, returns an error, the chain returns that same error and the
world is the one left by the publishers up to and including `i`: none after it
has been invoked. The chain returns nil exactly when every publisher, invoked
in the world left by those before it, returns nil, and the world is then the
one left by all of them; this is so for the empty chain. -/
theorem publisher_chain_first_error {σ : Type} (pc : PublisherChain σ) (w : σ) (mg : Managed)
    (c : ConnectionDetails) :
    ((∀ i p e, pc[i]? = some p →
        (∀ j q, j < i → pc[j]? = some q →
          (q.ApplyConnection (worldAfterApply (pc.take j) w mg c) mg c).1 = none) →
        (p.ApplyConnection (worldAfterApply (pc.take i) w mg c) mg c).1 = some e →
        pc.ApplyConnection w mg c = (some e, worldAfterApply (pc.take (i + 1)) w mg c)) ∧
      ((pc.ApplyConnection w mg c).1 = none ↔
        ∀ (j : Nat) (q : ManagedConnectionPublisher σ), pc[j]? = some q →
          (q.ApplyConnection (worldAfterApply (pc.take j) w mg c) mg c).1 = none) ∧
      ((pc.ApplyConnection w mg c).1 = none →
        (pc.ApplyConnection w mg c).2 = worldAfterApply pc w mg c)) ∧
    ((∀ i p e, pc[i]? = some p →
        (∀ j q, j < i → pc[j]? = some q →
          (q.DeleteConnection (worldAfterDelete (pc.take j) w mg c) mg c).1 = none) →
        (p.DeleteConnection (worldAfterDelete (pc.take i) w mg c) mg c).1 = some e →
        pc.DeleteConnection w mg c = (some e, worldAfterDelete (pc.take (i + 1)) w mg c)) ∧
      ((pc.DeleteConnection w mg c).1 = none ↔
        ∀ (j : Nat) (q : ManagedConnectionPublisher σ), pc[j]? = some q →
          (q.DeleteConnection (worldAfterDelete (pc.take j) w mg c) mg c).1 = none) ∧
      ((pc.DeleteConnection w mg c).1 = none →
        (pc.DeleteConnection w mg c).2 = worldAfterDelete pc w mg c)) ∧
    (PublisherChain.ApplyConnection ([] : PublisherChain σ) w mg c = (none, w) ∧
      PublisherChain.DeleteConnection ([] : PublisherChain σ) w mg c = (none, w)) := by
  have hA := chain_first_error
    (fun (p : ManagedConnectionPublisher σ) w => p.ApplyConnection w mg c)
    (fun ps w => PublisherChain.ApplyConnection ps w mg c)
    (fun w => by simp [PublisherChain.ApplyConnection])
    (fun p ps w => by simp only [PublisherChain.ApplyConnection]) pc w
  have hD := chain_first_error
    (fun (p : ManagedConnectionPublisher σ) w => p.DeleteConnection w mg c)
    (fun ps w => PublisherChain.DeleteConnection ps w mg c)
    (fun w => by simp [PublisherChain.DeleteConnection])
    (fun p ps w => by simp only [PublisherChain.DeleteConnection]) pc w
  refine ⟨⟨hA.1, ⟨hA.2.2, fun h => ?_⟩, fun h => ?_⟩, ⟨hD.1, ⟨hD.2.2, fun h => ?_⟩, fun h => ?_⟩,
    by simp [PublisherChain.ApplyConnection], by simp [PublisherChain.DeleteConnection]⟩
  · have := hA.2.1 h
    simp only at this
    rw [this]
  · have := hA.2.1 (hA.2.2 h)
    simp only at this
    rw [this]
    rfl
  · have := hD.2.1 h
    simp only at this
    rw [this]
  · have := hD.2.1 (hD.2.2 h)
    simp only at this
    rw [this]
    rfl

/-- Witness for C5: in a chain of three logging publishers whose second one
fails, both methods return the second one's error and the log shows the first
two publishers only. -/
theorem publisher_chain_first_error_witness :
    sampleChain.ApplyConnection [] sampleManaged userA =
        (some (GoError.new "b failed"), ["a", "b"]) ∧
      sampleChain.DeleteConnection [] sampleManaged userA =
        (some (GoError.new "b failed"), ["a", "b"]) :=
  ⟨(publisher_chain_first_error sampleChain [] sampleManaged userA).1.1 1
      (logPublisher "b" (some (GoError.new "b failed"))) (GoError.new "b failed") rfl
      (fun j q hj hq => by
        have hj0 : j = 0 := by omega
        subst hj0
        simp [sampleChain] at hq
        subst hq
        rfl)
      rfl,
   (publisher_chain_first_error sampleChain [] sampleManaged userA).2.1.1 1
      (logPublisher "b" (some (GoError.new "b failed"))) (GoError.new "b failed") rfl
      (fun j q hj hq => by
        have hj0 : j = 0 := by omega
        subst hj0
        simp [sampleChain] at hq
        subst hq
        rfl)
      rfl⟩

end resource

namespace composed

/-- The loop of `Overlay` started at index `n`: it stops at the first patch that
fails, with the index of that patch counted from `n`, and otherwise runs all
patches. -/
theorem overlayLoop_spec (L : Library) (cr : Composite) :
    ∀ (patches : List Patch) (n : Nat) (composed : Composable),
      (∀ i p e, patches[i]? = some p →
        (∀ j q, j < i → patches[j]? = some q →
          (L.PatchPatch q cr (patched L cr (patches.take j) composed)).1 = none) →
        (L.PatchPatch p cr (patched L cr (patches.take i) composed)).1 = some e →
        overlayLoop L cr n patches composed =
          (some (GoError.wrap e
            ("cannot apply the patch at index " ++ toString (n + i) ++ " on result")),
            patched L cr (patches.take (i + 1)) composed)) ∧
      ((∀ j q, patches[j]? = some q →
          (L.PatchPatch q cr (patched L cr (patches.take j) composed)).1 = none) →
        overlayLoop L cr n patches composed = (none, patched L cr patches composed)) := by
  intro patches
  induction patches with
  | nil =>
    intro n composed
    refine ⟨?_, ?_⟩
    · intro i p e h; simp at h
    · intro _; rfl
  | cons p0 ps ih =>
    intro n composed
    rcases hf : L.PatchPatch p0 cr composed with ⟨res, o₁⟩
    obtain ⟨ih1, ih2⟩ := ih (n + 1) o₁
    refine ⟨?_, ?_⟩
    · intro i p e hp hpre hfail
      cases i with
      | zero =>
        simp at hp
        subst hp
        simp [patched, hf] at hfail
        subst hfail
        simp [overlayLoop, hf, patched, Wrap]
      | succ i =>
        have h0 := hpre 0 p0 (Nat.succ_pos i) (by simp)
        simp [patched, hf] at h0
        subst h0
        have hstep : overlayLoop L cr n (p0 :: ps) composed = overlayLoop L cr (n + 1) ps o₁ := by
          simp [overlayLoop, hf]
        have hidx : n + 1 + i = n + (i + 1) := by omega
        rw [hstep, ← hidx]
        have hpat : ∀ k, patched L cr (List.take (k + 1) (p0 :: ps)) composed =
            patched L cr (List.take k ps) o₁ := by
          intro k
          simp [patched, hf]
        rw [hpat]
        apply ih1 i p e (by simpa using hp)
        · intro j q hj hq
          have := hpre (j + 1) q (Nat.succ_lt_succ hj) (by simpa using hq)
          rw [hpat] at this
          exact this
        · rw [hpat] at hfail
          exact hfail
    · intro hall
      have h0 := hall 0 p0 (by simp)
      simp [patched, hf] at h0
      subst h0
      have hstep : overlayLoop L cr n (p0 :: ps) composed = overlayLoop L cr (n + 1) ps o₁ := by
        simp [overlayLoop, hf]
      have hpat : ∀ k, patched L cr (List.take (k + 1) (p0 :: ps)) composed =
          patched L cr (List.take k ps) o₁ := by
        intro k
        simp [patched, hf]
      have hall₁ : patched L cr (p0 :: ps) composed = patched L cr ps o₁ := by
        simp [patched, hf]
      rw [hstep, hall₁]
      apply ih2
      intro j q hq
      have := hall (j + 1) q (by simpa using hq)
      rw [hpat] at this
      exact this

/-- After `meta.AddOwnerReference`, the reference is among the owner
references. -/
theorem mem_setOwnerReference (r : OwnerReference) (l : List OwnerReference) :
    r ∈ setOwnerReference r l := by
  induction l with
  | nil => simp [setOwnerReference]
  | cons x l ih =>
    by_cases h : x.UID = r.UID
    · simp [setOwnerReference, h]
    · simp [setOwnerReference, h, ih]

/-- The function `meta.AddOwnerReference` keeps every reference with another
UID and adds none. -/
theorem mem_setOwnerReference_of_ne (r : OwnerReference) (l : List OwnerReference)
    (y : OwnerReference) (hy : y.UID ≠ r.UID) : y ∈ setOwnerReference r l ↔ y ∈ l := by
  have hyr : y ≠ r := fun h => hy (by rw [h])
  induction l with
  | nil => simp [setOwnerReference, hyr]
  | cons x l ih =>
    by_cases h : x.UID = r.UID
    · have hyx : y ≠ x := fun h₁ => hy (by rw [h₁, h])
      simp [setOwnerReference, h, hyr, hyx]
    · simp [setOwnerReference, h, ih]

/-- The function `meta.AddOwnerReference` appends the reference when no
reference has its UID. -/
theorem setOwnerReference_fresh (r : OwnerReference) (l : List OwnerReference)
    (h : ∀ x ∈ l, x.UID ≠ r.UID) : setOwnerReference r l = l ++ [r] := by
  induction l with
  | nil => rfl
  | cons x l ih =>
    have hx : x.UID ≠ r.UID := h x (List.mem_cons_self _ _)
    simp [setOwnerReference, hx, ih (fun y hy => h y (List.mem_cons_of_mem _ hy))]

/-- The function `meta.AddOwnerReference` replaces, and so keeps the number of
references, when some reference has the UID. -/
theorem setOwnerReference_length (r : OwnerReference) (l : List OwnerReference)
    (h : ∃ x ∈ l, x.UID = r.UID) : (setOwnerReference r l).length = l.length := by
  induction l with
  | nil => simp at h
  | cons x l ih =>
    by_cases hx : x.UID = r.UID
    · simp [setOwnerReference, hx]
    · obtain ⟨y, hy, hyu⟩ := h
      have hyl : y ∈ l := by
        rcases List.mem_cons.mp hy with rfl | hm
        · exact absurd hyu hx
        · exact hm
      simp [setOwnerReference, hx, ih ⟨y, hyl, hyu⟩]

/-- The stamping step of `Overlay` on a child `o`. When `o` has no controller
reference, or one with the composite's UID, the step returns nil and changes
only the owner references of `o`: the owner reference to the composite is
among them, the references with another UID are the same as before, the
reference is appended when none had the UID, and replaces one otherwise. When
`o` is controlled by another UID, the step returns an error and `o` as it is. -/
theorem stamp_spec (cr : Composite) (o : Composable) :
    ((GetControllerOf o = none ∨ ∃ c, GetControllerOf o = some c ∧ c.UID = cr.UID) →
      ∃ refs, AddControllerReference o (AsOwner (ReferenceToComposite cr)) =
          (none, { o with OwnerReferences := refs }) ∧
        ({ APIVersion := cr.APIVersion, Kind := cr.Kind, Name := cr.Name, UID := cr.UID,
           Controller := false } : OwnerReference) ∈ refs ∧
        (∀ x : OwnerReference, x.UID ≠ cr.UID → (x ∈ refs ↔ x ∈ o.OwnerReferences)) ∧
        ((∀ x ∈ o.OwnerReferences, x.UID ≠ cr.UID) →
          refs = o.OwnerReferences ++
            [{ APIVersion := cr.APIVersion, Kind := cr.Kind, Name := cr.Name, UID := cr.UID,
               Controller := false }]) ∧
        ((∃ x ∈ o.OwnerReferences, x.UID = cr.UID) →
          refs.length = o.OwnerReferences.length)) ∧
    (∀ c, GetControllerOf o = some c → c.UID ≠ cr.UID →
      ∃ e, AddControllerReference o (AsOwner (ReferenceToComposite cr)) = (some e, o)) := by
  constructor
  · intro h
    refine ⟨setOwnerReference (AsOwner (ReferenceToComposite cr)) o.OwnerReferences, ?_,
      mem_setOwnerReference _ _,
      fun x hx => mem_setOwnerReference_of_ne _ _ x hx,
      fun hf => setOwnerReference_fresh _ _ hf,
      fun hex => setOwnerReference_length _ _ hex⟩
    rcases h with h | ⟨c, hc, hu⟩
    · simp [AddControllerReference, h, AddOwnerReference]
    · simp [AddControllerReference, hc, hu, AddOwnerReference, AsOwner, ReferenceToComposite]
  · intro c hc hu
    exact ⟨_, by simp [AddControllerReference, hc, hu, AsOwner, ReferenceToComposite]; rfl⟩

/-- C4, amended. `Overlay` runs the patches as a left fold in list order. If the
patch at index `i` is the first to return an error, `Overlay` returns that
error annotated with the index `i`, and the child is the one left by the
patches up to and including `i`: no later patch has run and no reference has
been added. If no patch returns an error, the child left by all patches is
stamped. When that child has no controller reference, or one with the
composite's UID, `Overlay` returns nil and the child differs from the patched
one in its owner references only: the owner reference to the composite (its
APIVersion, Kind, Name and UID, the controller flag not set) is among them,
appended when no reference had the composite's UID and replacing one
otherwise, and the references with another UID are as before. When that child
is controlled by another UID, `Overlay` returns an error annotated as the
failure to add the controller reference, and the child is the patched one,
without a new reference. For the empty patch list the patched child is the
supplied one. -/
theorem overlay_folds_patches (L : Library) (r : APIComposedReconciler) (cr : Composite)
    (composed : Composable) (patches : List Patch) :
    (∀ i p e, patches[i]? = some p →
      (∀ j q, j < i → patches[j]? = some q →
        (L.PatchPatch q cr (patched L cr (patches.take j) composed)).1 = none) →
      (L.PatchPatch p cr (patched L cr (patches.take i) composed)).1 = some e →
      r.Overlay L cr composed patches =
        (some (GoError.wrap e
          ("cannot apply the patch at index " ++ toString i ++ " on result")),
          patched L cr (patches.take (i + 1)) composed)) ∧
    ((∀ j q, patches[j]? = some q →
        (L.PatchPatch q cr (patched L cr (patches.take j) composed)).1 = none) →
      ((GetControllerOf (patched L cr patches composed) = none ∨
          ∃ c, GetControllerOf (patched L cr patches composed) = some c ∧ c.UID = cr.UID) →
        ∃ refs, r.Overlay L cr composed patches =
            (none, { patched L cr patches composed with OwnerReferences := refs }) ∧
          ({ APIVersion := cr.APIVersion, Kind := cr.Kind, Name := cr.Name, UID := cr.UID,
             Controller := false } : OwnerReference) ∈ refs ∧
          (∀ x : OwnerReference, x.UID ≠ cr.UID →
            (x ∈ refs ↔ x ∈ (patched L cr patches composed).OwnerReferences)) ∧
          ((∀ x ∈ (patched L cr patches composed).OwnerReferences, x.UID ≠ cr.UID) →
            refs = (patched L cr patches composed).OwnerReferences ++
              [{ APIVersion := cr.APIVersion, Kind := cr.Kind, Name := cr.Name, UID := cr.UID,
                 Controller := false }]) ∧
          ((∃ x ∈ (patched L cr patches composed).OwnerReferences, x.UID = cr.UID) →
            refs.length = (patched L cr patches composed).OwnerReferences.length)) ∧
      (∀ c, GetControllerOf (patched L cr patches composed) = some c → c.UID ≠ cr.UID →
        ∃ e, r.Overlay L cr composed patches =
          (some (GoError.wrap e "cannot add controller ref to composed resource"),
            patched L cr patches composed))) ∧
    (((GetControllerOf composed = none ∨
          ∃ c, GetControllerOf composed = some c ∧ c.UID = cr.UID) →
        ∃ refs, r.Overlay L cr composed [] = (none, { composed with OwnerReferences := refs }) ∧
          ({ APIVersion := cr.APIVersion, Kind := cr.Kind, Name := cr.Name, UID := cr.UID,
             Controller := false } : OwnerReference) ∈ refs ∧
          (∀ x : OwnerReference, x.UID ≠ cr.UID → (x ∈ refs ↔ x ∈ composed.OwnerReferences)) ∧
          ((∀ x ∈ composed.OwnerReferences, x.UID ≠ cr.UID) →
            refs = composed.OwnerReferences ++
              [{ APIVersion := cr.APIVersion, Kind := cr.Kind, Name := cr.Name, UID := cr.UID,
                 Controller := false }]) ∧
          ((∃ x ∈ composed.OwnerReferences, x.UID = cr.UID) →
            refs.length = composed.OwnerReferences.length)) ∧
      (∀ c, GetControllerOf composed = some c → c.UID ≠ cr.UID →
        ∃ e, r.Overlay L cr composed [] =
          (some (GoError.wrap e "cannot add controller ref to composed resource"),
            composed))) := by
  obtain ⟨h1, h2⟩ := overlayLoop_spec L cr patches 0 composed
  have hstamp : ∀ (ps : List Patch) (o : Composable),
      overlayLoop L cr 0 ps composed = (none, o) →
      ((GetControllerOf o = none ∨ ∃ c, GetControllerOf o = some c ∧ c.UID = cr.UID) →
        ∃ refs, r.Overlay L cr composed ps = (none, { o with OwnerReferences := refs }) ∧
          ({ APIVersion := cr.APIVersion, Kind := cr.Kind, Name := cr.Name, UID := cr.UID,
             Controller := false } : OwnerReference) ∈ refs ∧
          (∀ x : OwnerReference, x.UID ≠ cr.UID → (x ∈ refs ↔ x ∈ o.OwnerReferences)) ∧
          ((∀ x ∈ o.OwnerReferences, x.UID ≠ cr.UID) →
            refs = o.OwnerReferences ++
              [{ APIVersion := cr.APIVersion, Kind := cr.Kind, Name := cr.Name, UID := cr.UID,
                 Controller := false }]) ∧
          ((∃ x ∈ o.OwnerReferences, x.UID = cr.UID) →
            refs.length = o.OwnerReferences.length)) ∧
      (∀ c, GetControllerOf o = some c → c.UID ≠ cr.UID →
        ∃ e, r.Overlay L cr composed ps =
          (some (GoError.wrap e "cannot add controller ref to composed resource"), o)) := by
    intro ps o hloop
    obtain ⟨hok, hbad⟩ := stamp_spec cr o
    constructor
    · intro hc
      obtain ⟨refs, hadd, hrest⟩ := hok hc
      exact ⟨refs, by simp only [APIComposedReconciler.Overlay, hloop, hadd, Wrap], hrest⟩
    · intro c hc hu
      obtain ⟨e, hadd⟩ := hbad c hc hu
      exact ⟨e, by simp only [APIComposedReconciler.Overlay, hloop, hadd, Wrap]⟩
  refine ⟨?_, ?_, ?_⟩
  · intro i p e hp hpre hfail
    have := h1 i p e hp hpre hfail
    simp only [Nat.zero_add] at this
    simp only [APIComposedReconciler.Overlay, this]
  · intro hall
    exact hstamp patches _ (h2 hall)
  · exact hstamp [] composed rfl

/-- C4, as stated, fails. The child `foreignChild` is controlled by another
composite; with the empty patch list no patch fails, yet `Overlay` returns an
error and the child is as it was, without a reference to the composite. And
where `Overlay` succeeds, on the empty child, the reference it adds does not
make the composite the controller: the child still has no controller
reference. -/
theorem overlay_stamp_not_always :
    (sampleReconciler.Overlay sampleLibrary (sampleComposite none) foreignChild []).1 ≠ none ∧
      (sampleReconciler.Overlay sampleLibrary (sampleComposite none) foreignChild []).2 =
        foreignChild ∧
      (sampleReconciler.Overlay sampleLibrary (sampleComposite none) {} []).1 = none ∧
      GetControllerOf
        (sampleReconciler.Overlay sampleLibrary (sampleComposite none) {} []).2 = none := by
  refine ⟨by decide, by decide, by decide, by decide⟩

/-- Witness for C4. Two patches that write the same field of an empty child: the
later value stays, and the owner reference to the composite is appended. Three
patches whose second one fails: the error carries the index 1, the child has
the first patch's value only, and no reference. A child controlled by the
composite: the reference replaces the one with the composite's UID. A child
controlled by another composite: the stamping error, and the child as it
was. -/
theorem overlay_folds_patches_witness :
    sampleReconciler.Overlay sampleLibrary (sampleComposite none) {}
        [⟨"x", "size"⟩, ⟨"y", "size"⟩] =
      (none, { Fields := [("size", "2")],
               OwnerReferences :=
                 [{ APIVersion := "example.org/v1", Kind := "Composite", Name := "cr",
                    UID := "uid-cr", Controller := false }] }) ∧
    sampleReconciler.Overlay sampleLibrary (sampleComposite none) {}
        [⟨"x", "size"⟩, ⟨"z", "size"⟩, ⟨"y", "size"⟩] =
      (some (GoError.wrap (GoError.new "no field z")
          "cannot apply the patch at index 1 on result"),
        { Fields := [("size", "1")] }) ∧
    (∃ refs, sampleReconciler.Overlay sampleLibrary (sampleComposite none) ownedChild [] =
        (none, { ownedChild with OwnerReferences := refs }) ∧
      ({ APIVersion := "example.org/v1", Kind := "Composite", Name := "cr", UID := "uid-cr",
         Controller := false } : OwnerReference) ∈ refs ∧ refs.length = 2) ∧
    (∃ e, sampleReconciler.Overlay sampleLibrary (sampleComposite none) foreignChild [] =
      (some (GoError.wrap e "cannot add controller ref to composed resource"),
        foreignChild)) := by
  refine ⟨?_, ?_, ?_, ?_⟩
  · obtain ⟨refs, h, _, _, happ, _⟩ :=
      ((overlay_folds_patches sampleLibrary sampleReconciler (sampleComposite none) {}
        [⟨"x", "size"⟩, ⟨"y", "size"⟩]).2.1
        (fun j q hq => by
          match j, hq with
          | 0, hq => simp at hq; subst hq; rfl
          | 1, hq => simp at hq; subst hq; rfl
          | (n + 2), hq => simp at hq)).1 (Or.inl rfl)
    rw [h, happ (fun x hx =>
      absurd (show x ∈ ([] : List OwnerReference) from hx) (List.not_mem_nil x))]
    rfl
  · exact (overlay_folds_patches sampleLibrary sampleReconciler (sampleComposite none) {}
      [⟨"x", "size"⟩, ⟨"z", "size"⟩, ⟨"y", "size"⟩]).1 1 ⟨"z", "size"⟩
      (GoError.new "no field z") rfl
      (fun j q hj hq => by
        have hj0 : j = 0 := by omega
        subst hj0
        simp at hq
        subst hq
        rfl)
      rfl
  · obtain ⟨refs, h, hmem, _, _, hlen⟩ :=
      (overlay_folds_patches sampleLibrary sampleReconciler (sampleComposite none) ownedChild
        []).2.2.1 (Or.inr ⟨_, rfl, rfl⟩)
    exact ⟨refs, h, hmem, hlen ⟨_, List.mem_cons_of_mem _ (List.mem_cons_self _ _), rfl⟩⟩
  · exact (overlay_folds_patches sampleLibrary sampleReconciler (sampleComposite none)
      foreignChild []).2.2.2 _ rfl (by decide)

/-- Setting, for each element of a list in order, the key `g a` to `v a` gives
a map that reads, under a key, the value of the last element with that key. -/
theorem foldl_insert_last {α : Type} (g : α → String) (v : α → Bytes) (l : List α)
    (d : Crossplane.ConnectionDetails) (k : String) :
    (l.foldl (fun out a => out.insert (g a) (v a)) d).lookup k =
      match (l.filter (fun a => decide (g a = k))).getLast? with
      | some a => some (v a)
      | none => d.lookup k := by
  induction l using List.reverseRecOn with
  | nil => rfl
  | append_singleton l a ih =>
    rw [List.foldl_append, List.foldl_cons, List.foldl_nil, List.filter_append]
    by_cases h : g a = k
    · subst h
      simp [List.filter_cons, List.getLast?_append]
    · have hk : k ≠ g a := fun h' => h h'.symm
      rw [AList.lookup_insert_ne hk, ih]
      simp [List.filter_cons, h]

/-- C8. `GetConnectionDetails` returns nil details and nil error, without a
store call, when the child declares no connection secret; otherwise it reads
that secret once. When the read reports not-found it returns nil details and
nil error; when the read fails otherwise it returns that error; when the read
succeeds it returns a map whose keys are exactly the output keys of the
selectors, each reading the secret's value at the source key of the last
selector with that output key (the zero value when the secret lacks it). -/
theorem get_connection_details_spec (r : APIComposedReconciler) (composed : Composable)
    (filter : List ConnectionDetail) :
    (composed.WriteConnectionSecretToReference = none →
      r.GetConnectionDetails composed filter = (none, none, [])) ∧
    (∀ ref, composed.WriteConnectionSecretToReference = some ref →
      (∀ e, r.client.GetSecret ref.Namespace ref.Name = .error e → IsNotFound (some e) = true →
        r.GetConnectionDetails composed filter =
          (none, none, [StoreCall.GetSecret ref.Namespace ref.Name])) ∧
      (∀ e, r.client.GetSecret ref.Namespace ref.Name = .error e → IsNotFound (some e) = false →
        r.GetConnectionDetails composed filter =
          (none, some e, [StoreCall.GetSecret ref.Namespace ref.Name])) ∧
      (∀ secret, r.client.GetSecret ref.Namespace ref.Name = .ok secret →
        ∃ out, r.GetConnectionDetails composed filter =
            (some out, none, [StoreCall.GetSecret ref.Namespace ref.Name]) ∧
          (∀ k, k ∈ out ↔ ∃ sel ∈ filter, sel.outputKey = k) ∧
          (∀ k sel, (filter.filter (fun s => decide (s.outputKey = k))).getLast? = some sel →
            out.lookup k = some ((secret.get sel.FromConnectionSecretKey).getD [])))) := by
  refine ⟨fun h => by simp [APIComposedReconciler.GetConnectionDetails, h], ?_⟩
  intro ref href
  refine ⟨?_, ?_, ?_⟩
  · intro e he hnf
    simp [APIComposedReconciler.GetConnectionDetails, href, he, errOf, IgnoreNotFound, hnf]
  · intro e he hnf
    simp [APIComposedReconciler.GetConnectionDetails, href, he, errOf, IgnoreNotFound, hnf]
  · intro secret hs
    have hlook := foldl_insert_last ConnectionDetail.outputKey
      (fun sel => (secret.get sel.FromConnectionSecretKey).getD []) filter ∅
    refine ⟨_, by
      simp only [APIComposedReconciler.GetConnectionDetails, href, hs, errOf, IgnoreNotFound,
        IsNotFound]
      rfl, ?_, ?_⟩
    · intro k
      rw [← AList.lookup_isSome]
      have := hlook k
      simp only [ConnectionDetail.outputKey] at this ⊢
      rw [this]
      cases hl : (filter.filter (fun a => decide ((match a.Name with
          | some n => n
          | none => a.FromConnectionSecretKey) = k))).getLast? with
      | none =>
        have hnil := List.getLast?_eq_none_iff.mp hl
        simp only [AList.lookup_empty, Option.isSome_none, Bool.false_eq_true, false_iff]
        rintro ⟨sel, hmem, hkey⟩
        have : sel ∈ filter.filter (fun a => decide ((match a.Name with
          | some n => n
          | none => a.FromConnectionSecretKey) = k)) := by
          simp [List.mem_filter, hmem, hkey]
        rw [hnil] at this
        simp at this
      | some sel =>
        have hmem := List.mem_of_getLast?_eq_some hl
        simp only [Option.isSome_some, true_iff]
        rw [List.mem_filter] at hmem
        exact ⟨sel, hmem.1, by simpa using hmem.2⟩
    · intro k sel hsel
      have := hlook k
      rw [hsel] at this
      exact this

/-- Witness for C8: the child writes its connection secret to `ns/child-conn`,
which the store holds with the one key `endpoint`; the selectors rename that
key to `url` and select a key the secret lacks. -/
theorem get_connection_details_spec_witness :
    ∃ out, sampleReconciler.GetConnectionDetails
        { WriteConnectionSecretToReference := some { Namespace := "ns", Name := "child-conn" } }
        sampleTemplate.ConnectionDetails =
        (some out, none, [StoreCall.GetSecret "ns" "child-conn"]) ∧
      out.lookup "url" = some [1, 2] ∧ out.lookup "password" = some [] ∧
      ¬ ("endpoint" ∈ out) := by
  obtain ⟨out, h, hkeys, hval⟩ :=
    (get_connection_details_spec sampleReconciler
      { WriteConnectionSecretToReference := some { Namespace := "ns", Name := "child-conn" } }
      sampleTemplate.ConnectionDetails).2 { Namespace := "ns", Name := "child-conn" } rfl
      |>.2.2 _ rfl
  refine ⟨out, h, hval "url" ⟨some "url", "endpoint"⟩ rfl,
    hval "password" ⟨none, "password"⟩ rfl, ?_⟩
  rw [hkeys]
  rintro ⟨sel, hmem, hk⟩
  simp [sampleTemplate] at hmem
  rcases hmem with rfl | rfl <;> simp [ConnectionDetail.outputKey] at hk

/-- C9. For a composite marked for deletion, `Reconcile` returns the empty
observation and does not depend on the template or on the functions that
configure and patch a child. With an empty child reference it issues no store
call and returns nil. Otherwise its one store call is a Delete of the child
built from the reference; it returns nil when that Delete returns nil or a
not-found error, and any other error of the Delete as it is. -/
theorem reconcile_deleted (L : Library) (r : APIComposedReconciler) (cr : Composite)
    (composedRef : ObjectReference) (tmpl : ComposedTemplate) (hdel : WasDeleted cr = true) :
    (r.Reconcile L cr composedRef tmpl).1 = {} ∧
    (∀ (L₁ : Library) (tmpl₁ : ComposedTemplate),
      r.Reconcile L₁ cr composedRef tmpl₁ = r.Reconcile L cr composedRef tmpl) ∧
    (composedRef.Name = "" → r.Reconcile L cr composedRef tmpl = ({}, none, [])) ∧
    (composedRef.Name ≠ "" →
      (r.Reconcile L cr composedRef tmpl).2.2 =
        [StoreCall.Delete (NewComposableResource (some composedRef))] ∧
      ((r.client.Delete (NewComposableResource (some composedRef)) = none ∨
          IsNotFound (r.client.Delete (NewComposableResource (some composedRef))) = true) →
        (r.Reconcile L cr composedRef tmpl).2.1 = none) ∧
      (r.client.Delete (NewComposableResource (some composedRef)) ≠ none →
        IsNotFound (r.client.Delete (NewComposableResource (some composedRef))) = false →
        (r.Reconcile L cr composedRef tmpl).2.1 =
          r.client.Delete (NewComposableResource (some composedRef)))) := by
  refine ⟨?_, ?_, ?_, ?_⟩
  · simp only [APIComposedReconciler.Reconcile, hdel, if_true]
    split
    · rfl
    · split <;> rfl
  · intro L₁ tmpl₁
    simp only [APIComposedReconciler.Reconcile, hdel, if_true]
  · intro h
    simp only [APIComposedReconciler.Reconcile, hdel, if_true, h]
  · intro h
    simp only [APIComposedReconciler.Reconcile, hdel, if_true, if_neg h]
    refine ⟨?_, ?_, ?_⟩
    · split <;> rfl
    · intro hok
      rcases hok with hnone | hnf
      · simp [hnone, IgnoreNotFound, IsNotFound]
      · simp [IgnoreNotFound, hnf]
    · intro hne hnf
      simp [IgnoreNotFound, hnf, hne]

/-- Witness for C9: a deleted composite with the reference `ns/child`, which
the store deletes, and with a reference the store does not know. -/
theorem reconcile_deleted_witness :
    sampleReconciler.Reconcile sampleLibrary (sampleComposite (some 1)) {} sampleTemplate =
        ({}, none, []) ∧
      (sampleReconciler.Reconcile sampleLibrary (sampleComposite (some 1)) childRef
          sampleTemplate).2.2 = [StoreCall.Delete (NewComposableResource (some childRef))] ∧
      (sampleReconciler.Reconcile sampleLibrary (sampleComposite (some 1)) childRef
          sampleTemplate).2.1 = none ∧
      (sampleReconciler.Reconcile sampleLibrary (sampleComposite (some 1))
          { childRef with Name := "gone" } sampleTemplate).2.1 = none :=
  ⟨(reconcile_deleted sampleLibrary sampleReconciler (sampleComposite (some 1)) {}
      sampleTemplate rfl).2.2.1 rfl,
   ((reconcile_deleted sampleLibrary sampleReconciler (sampleComposite (some 1)) childRef
      sampleTemplate rfl).2.2.2 (by decide)).1,
   ((reconcile_deleted sampleLibrary sampleReconciler (sampleComposite (some 1)) childRef
      sampleTemplate rfl).2.2.2 (by decide)).2.1 (Or.inl rfl),
   ((reconcile_deleted sampleLibrary sampleReconciler (sampleComposite (some 1))
      { childRef with Name := "gone" } sampleTemplate rfl).2.2.2 (by decide)).2.1 (Or.inr rfl)⟩

/-- C10. For a composite not marked for deletion, `Reconcile` resolves or
instantiates the child, overlays the patches, applies the child and harvests
its connection details, in that order. The first step that returns an error
ends it: `Reconcile` returns that error as it is with the empty observation,
and the store calls are those issued up to that step, so that a failing
fetch, configuration or overlay is followed by no Apply, and a failing Apply
by no read of the secret. When every step succeeds it returns the reference
to the child as applied, with the harvested details. -/
theorem reconcile_steps (L : Library) (r : APIComposedReconciler) (cr : Composite)
    (composedRef : ObjectReference) (tmpl : ComposedTemplate) (hlive : WasDeleted cr = false) :
    (composedRef.Name = "" → ∀ e o,
      r.Configure L cr (NewComposableResource none) tmpl = (some e, o) →
      r.Reconcile L cr composedRef tmpl = ({}, some e, [])) ∧
    (composedRef.Name ≠ "" → ∀ e,
      r.client.Get composedRef.Namespace composedRef.Name
          (NewComposableResource (some composedRef)) = .error e →
      r.Reconcile L cr composedRef tmpl =
        ({}, some e, [StoreCall.Get composedRef.Namespace composedRef.Name])) ∧
    (∀ child pre,
      ((composedRef.Name = "" ∧
          r.Configure L cr (NewComposableResource none) tmpl = (none, child) ∧ pre = []) ∨
        (composedRef.Name ≠ "" ∧
          r.client.Get composedRef.Namespace composedRef.Name
            (NewComposableResource (some composedRef)) = .ok child ∧
          pre = [StoreCall.Get composedRef.Namespace composedRef.Name])) →
      (∀ e o, r.Overlay L cr child tmpl.Patches = (some e, o) →
        r.Reconcile L cr composedRef tmpl = ({}, some e, pre)) ∧
      (∀ child₁, r.Overlay L cr child tmpl.Patches = (none, child₁) →
        (∀ e, r.client.Apply child₁ cr.UID = .error e →
          r.Reconcile L cr composedRef tmpl =
            ({}, some e, pre ++ [StoreCall.Apply child₁ cr.UID])) ∧
        (∀ child₂, r.client.Apply child₁ cr.UID = .ok child₂ →
          (∀ conn e calls,
            r.GetConnectionDetails child₂ tmpl.ConnectionDetails = (conn, some e, calls) →
            r.Reconcile L cr composedRef tmpl =
              ({}, some e, pre ++ [StoreCall.Apply child₁ cr.UID] ++ calls)) ∧
          (∀ conn calls,
            r.GetConnectionDetails child₂ tmpl.ConnectionDetails = (conn, none, calls) →
            r.Reconcile L cr composedRef tmpl =
              ({ Ref := ReferenceToComposed child₂, ConnectionDetails := conn }, none,
                pre ++ [StoreCall.Apply child₁ cr.UID] ++ calls))))) := by
  refine ⟨?_, ?_, ?_⟩
  · intro h e o hc
    simp [APIComposedReconciler.Reconcile, hlive, h, hc]
  · intro h e hg
    have hg₁ : r.client.Get (NewComposableResource (some composedRef)).Namespace
        (NewComposableResource (some composedRef)).Name
        (NewComposableResource (some composedRef)) = .error e := hg
    simp [APIComposedReconciler.Reconcile, hlive, h, hg₁]
    exact ⟨rfl, rfl⟩
  · intro child pre hres
    have hresolved : ∀ rest : Composable → List StoreCall →
        Observation × Option GoError × List StoreCall,
        (match (if composedRef.Name = "" then
            match r.Configure L cr (NewComposableResource none) tmpl with
            | (err, composed) => (err, composed, [])
          else
            match r.client.Get (NewComposableResource (some composedRef)).Namespace
              (NewComposableResource (some composedRef)).Name
              (NewComposableResource (some composedRef)) with
            | .error err =>
              (some err, NewComposableResource (some composedRef),
                [StoreCall.Get (NewComposableResource (some composedRef)).Namespace
                  (NewComposableResource (some composedRef)).Name])
            | .ok composed₁ =>
              (none, composed₁,
                [StoreCall.Get (NewComposableResource (some composedRef)).Namespace
                  (NewComposableResource (some composedRef)).Name]) :
            Option GoError × Composable × List StoreCall) with
          | (some err, _, calls) => ({}, some err, calls)
          | (none, composed, calls) => rest composed calls) = rest child pre := by
      intro rest
      rcases hres with ⟨h, hc, hp⟩ | ⟨h, hg, hp⟩
      · subst hp
        simp [h, hc]
      · subst hp
        have hg₁ : r.client.Get (NewComposableResource (some composedRef)).Namespace
            (NewComposableResource (some composedRef)).Name
            (NewComposableResource (some composedRef)) = .ok child := hg
        simp [h, hg₁]
        rfl
    refine ⟨?_, ?_⟩
    · intro e o ho
      simp only [APIComposedReconciler.Reconcile, hlive, Bool.false_eq_true, if_false]
      rw [hresolved]
      simp [ho]
    · intro child₁ ho
      refine ⟨?_, ?_⟩
      · intro e ha
        simp only [APIComposedReconciler.Reconcile, hlive, Bool.false_eq_true, if_false]
        rw [hresolved]
        simp [ho, ha]
      · intro child₂ ha
        refine ⟨?_, ?_⟩
        · intro conn e calls hgc
          simp only [APIComposedReconciler.Reconcile, hlive, Bool.false_eq_true, if_false]
          rw [hresolved]
          simp [ho, ha, hgc]
        · intro conn calls hgc
          simp only [APIComposedReconciler.Reconcile, hlive, Bool.false_eq_true, if_false]
          rw [hresolved]
          simp [ho, ha, hgc]

/-- Witness for C10. With an empty child reference the sample reconciler
instantiates the child, overlays it, applies it and, the child declaring no
connection secret, returns the applied child's reference with nil details;
the one store call is the Apply. With a reference the store does not know,
the fetch fails, its error is returned and there is no Apply. -/
theorem reconcile_steps_witness :
    sampleReconciler.Reconcile sampleLibrary (sampleComposite none) {} sampleTemplate =
        ({ Ref := { Name := "cr-x" }, ConnectionDetails := none }, none,
          [StoreCall.Apply overlaidChild "uid-cr"]) ∧
      sampleReconciler.Reconcile sampleLibrary (sampleComposite none)
          { childRef with Name := "gone" } sampleTemplate =
        ({}, some (GoError.apiNotFound "gone"), [StoreCall.Get "ns" "gone"]) :=
  ⟨((((reconcile_steps sampleLibrary sampleReconciler (sampleComposite none) {} sampleTemplate
      rfl).2.2 { GenerateName := "cr-", Fields := [("base", "base-json")] } []
      (Or.inl ⟨rfl, rfl, rfl⟩)).2 overlaidChild rfl).2
      { overlaidChild with Name := "cr-x" } rfl).2 none [] rfl,
   (reconcile_steps sampleLibrary sampleReconciler (sampleComposite none)
      { childRef with Name := "gone" } sampleTemplate rfl).2.1 (by decide)
      (GoError.apiNotFound "gone") rfl⟩

end composed

namespace connection

/-- The order of `sort.Strings` is total. -/
theorem stringLE_total : IsTotal String stringLE :=
  ⟨fun a b => le_total a.data b.data⟩

/-- The order of `sort.Strings` is transitive. -/
theorem stringLE_trans : IsTrans String stringLE :=
  ⟨fun _ _ _ hab hbc => le_trans (α := List Char) hab hbc⟩

/-- Two strings that are each below the other are the same string. -/
theorem stringLE_antisymm : IsAntisymm String stringLE :=
  ⟨fun _ _ hab hba => String.ext (le_antisymm (α := List Char) hab hba)⟩

/-- Two slices sort to the same slice exactly when each is a reordering of
the other. -/
theorem sortStrings_eq_iff_perm (l₁ l₂ : List String) :
    sortStrings l₁ = sortStrings l₂ ↔ l₁.Perm l₂ := by
  haveI := stringLE_total
  haveI := stringLE_trans
  haveI := stringLE_antisymm
  constructor
  · intro h
    have h₁ : (sortStrings l₁).Perm l₁ := List.perm_insertionSort stringLE l₁
    have h₂ : (sortStrings l₂).Perm l₂ := List.perm_insertionSort stringLE l₂
    rw [h] at h₁
    exact h₁.symm.trans h₂
  · intro h
    exact List.eq_of_perm_of_sorted
      (((List.perm_insertionSort stringLE l₁).trans h).trans
        (List.perm_insertionSort stringLE l₂).symm)
      (List.sorted_insertionSort stringLE l₁) (List.sorted_insertionSort stringLE l₂)

/-- The loop of `UpToDate` over indices that are in range for two slices of
the same length does not panic, and returns whether the slices agree at every
index visited. -/
theorem compareLoop_spec (ps os : List String) (hlen : ps.length = os.length) :
    ∀ is : List Nat, (∀ i ∈ is, i < ps.length) →
      compareLoop ps os is = some (decide (∀ i ∈ is, ps[i]? = os[i]?)) := by
  intro is
  induction is with
  | nil => intro _; simp [compareLoop]
  | cons i rest ih =>
    intro hall
    have hi : i < ps.length := hall i (List.mem_cons_self _ _)
    have hio : i < os.length := hlen ▸ hi
    have ihr := ih (fun j hj => hall j (List.mem_cons_of_mem _ hj))
    simp only [compareLoop, List.getElem?_eq_getElem hi, List.getElem?_eq_getElem hio]
    have hsome : ps[i]? = os[i]? ↔ ps[i] = os[i] := by
      rw [List.getElem?_eq_getElem hi, List.getElem?_eq_getElem hio]
      exact Option.some_inj
    by_cases h : ps[i] = os[i]
    · simp [h, ihr, hsome]
    · simp [h, hsome]

/-- Over all the indices of two slices of the same length, the loop of
`UpToDate` returns whether the slices are equal. -/
theorem compareLoop_range (ps os : List String) (hlen : ps.length = os.length) :
    compareLoop ps os (List.range ps.length) = some (decide (ps = os)) := by
  rw [compareLoop_spec ps os hlen _ (fun i hi => List.mem_range.mp hi)]
  congr 1
  apply decide_eq_decide.mpr
  constructor
  · intro h
    apply List.ext_getElem?
    intro n
    by_cases hn : n < ps.length
    · exact h n (List.mem_range.mpr hn)
    · rw [List.getElem?_eq_none (by omega), List.getElem?_eq_none (by omega)]
  · intro h i _
    rw [h]
/-- The function `UpToDate` never panics, and returns true exactly when the
two slices have the same length and sort to the same slice. -/
theorem UpToDate_result (p : ConnectionParameters) (observed : Connection) :
    ∃ out, UpToDate p observed = some out ∧
      (out.result = true ↔
        p.ReservedPeeringRanges.length = observed.ReservedPeeringRanges.length ∧
          sortStrings p.ReservedPeeringRanges = sortStrings observed.ReservedPeeringRanges) := by
  by_cases hlen : p.ReservedPeeringRanges.length = observed.ReservedPeeringRanges.length
  · have hs : (sortStrings p.ReservedPeeringRanges).length =
        (sortStrings observed.ReservedPeeringRanges).length := by
      simp only [sortStrings, List.length_insertionSort, hlen]
    refine ⟨⟨decide (sortStrings p.ReservedPeeringRanges =
        sortStrings observed.ReservedPeeringRanges), sortStrings p.ReservedPeeringRanges,
        sortStrings observed.ReservedPeeringRanges⟩, ?_, ?_⟩
    · simp only [UpToDate, hlen, ne_eq, not_true_eq_false, if_false, compareLoop_range _ _ hs]
    · simp [hlen]
  · refine ⟨⟨false, p.ReservedPeeringRanges, observed.ReservedPeeringRanges⟩, ?_, ?_⟩
    · simp only [UpToDate, ne_eq, hlen, not_false_eq_true, if_true]
    · simp [hlen]

/-- C11. For every desired reserved-range list and every observed list that is
a reordering of it, `UpToDate` returns true (and leaves both slices sorted,
hence equal). -/
theorem up_to_date_of_perm (p : ConnectionParameters) (observed : Connection)
    (h : observed.ReservedPeeringRanges.Perm p.ReservedPeeringRanges) :
    UpToDate p observed =
      some ⟨true, sortStrings p.ReservedPeeringRanges, sortStrings p.ReservedPeeringRanges⟩ := by
  have hsort := (sortStrings_eq_iff_perm _ _).mpr h
  have hlen : p.ReservedPeeringRanges.length = observed.ReservedPeeringRanges.length :=
    h.length_eq.symm
  have hs : (sortStrings p.ReservedPeeringRanges).length =
      (sortStrings observed.ReservedPeeringRanges).length := by
    rw [hsort]
  simp only [UpToDate, hlen, ne_eq, not_true_eq_false, if_false, compareLoop_range _ _ hs]
  simp [hsort]

/-- Witness for C11: the observed ranges `10.0.0.0/8, 192.168.0.0/16` against
the desired ranges `192.168.0.0/16, 10.0.0.0/8`. -/
theorem up_to_date_of_perm_witness :
    UpToDate ⟨"net", ["192.168.0.0/16", "10.0.0.0/8"]⟩
        { ReservedPeeringRanges := ["10.0.0.0/8", "192.168.0.0/16"] } =
      some ⟨true, ["10.0.0.0/8", "192.168.0.0/16"], ["10.0.0.0/8", "192.168.0.0/16"]⟩ :=
  up_to_date_of_perm ⟨"net", ["192.168.0.0/16", "10.0.0.0/8"]⟩
    { ReservedPeeringRanges := ["10.0.0.0/8", "192.168.0.0/16"] } (by decide)

/-- C12, as stated, fails. The desired ranges `10.0.0.0/8, 10.0.0.0/8,
192.168.0.0/16` and the observed ranges `10.0.0.0/8, 192.168.0.0/16,
192.168.0.0/16` contain the same elements, and so do `10.0.0.0/8` and
`10.0.0.0/8, 10.0.0.0/8`; on both pairs `UpToDate` returns false. -/
theorem up_to_date_not_set_equality :
    ((∀ x : String, x ∈ ["10.0.0.0/8", "10.0.0.0/8", "192.168.0.0/16"] ↔
          x ∈ ["10.0.0.0/8", "192.168.0.0/16", "192.168.0.0/16"]) ∧
        UpToDate ⟨"net", ["10.0.0.0/8", "10.0.0.0/8", "192.168.0.0/16"]⟩
            { ReservedPeeringRanges := ["10.0.0.0/8", "192.168.0.0/16", "192.168.0.0/16"] } =
          some ⟨false, ["10.0.0.0/8", "10.0.0.0/8", "192.168.0.0/16"],
            ["10.0.0.0/8", "192.168.0.0/16", "192.168.0.0/16"]⟩) ∧
      ((∀ x : String, x ∈ ["10.0.0.0/8"] ↔ x ∈ ["10.0.0.0/8", "10.0.0.0/8"]) ∧
        UpToDate ⟨"net", ["10.0.0.0/8"]⟩
            { ReservedPeeringRanges := ["10.0.0.0/8", "10.0.0.0/8"] } =
          some ⟨false, ["10.0.0.0/8"], ["10.0.0.0/8", "10.0.0.0/8"]⟩) := by
  refine ⟨⟨fun x => by simp, by decide⟩, ⟨fun x => by simp, by decide⟩⟩

/-- C12, amended. For every desired and observed reserved-range list,
`UpToDate` returns, and returns true exactly when the two lists are equal as
multisets: each is a reordering of the other, repeated elements counted. For
lists without repeated elements that is equality as sets. -/
theorem up_to_date_iff_perm (p : ConnectionParameters) (observed : Connection) :
    (∃ out, UpToDate p observed = some out) ∧
    ((UpToDate p observed).map (fun out => out.result) = some true ↔
      p.ReservedPeeringRanges.Perm observed.ReservedPeeringRanges) ∧
    (p.ReservedPeeringRanges.Nodup → observed.ReservedPeeringRanges.Nodup →
      ((UpToDate p observed).map (fun out => out.result) = some true ↔
        ∀ x, x ∈ p.ReservedPeeringRanges ↔ x ∈ observed.ReservedPeeringRanges)) := by
  obtain ⟨out, hout, hres⟩ := UpToDate_result p observed
  have hperm : (UpToDate p observed).map (fun out => out.result) = some true ↔
      p.ReservedPeeringRanges.Perm observed.ReservedPeeringRanges := by
    rw [hout]
    simp only [Option.map_some', Option.some.injEq]
    rw [hres]
    constructor
    · intro h
      exact (sortStrings_eq_iff_perm _ _).mp h.2
    · intro h
      exact ⟨h.length_eq, (sortStrings_eq_iff_perm _ _).mpr h⟩
  refine ⟨⟨out, hout⟩, hperm, ?_⟩
  intro hp ho
  rw [hperm]
  exact List.perm_ext_iff_of_nodup hp ho

/-- Witness for the amended C12: two lists without repeated elements that
contain the same elements, in different orders. -/
theorem up_to_date_iff_perm_witness :
    (UpToDate ⟨"net", ["192.168.0.0/16", "10.0.0.0/8"]⟩
        { ReservedPeeringRanges := ["10.0.0.0/8", "192.168.0.0/16"] }).map
      (fun out => out.result) = some true :=
  ((up_to_date_iff_perm ⟨"net", ["192.168.0.0/16", "10.0.0.0/8"]⟩
      { ReservedPeeringRanges := ["10.0.0.0/8", "192.168.0.0/16"] }).2.2
      (by decide) (by decide)).mpr (fun x => by simp [or_comm])

end connection

end Crossplane
